import Mathlib

/-!
# roadeye backend: hazard store, verification ledger, credentials

A shallow embedding of the Go backend (`backend/internal/...`, `backend/pkg/models`).

Conventions of the embedding:
* `uuid.UUID` values are natural numbers, `time.Time` and `time.Duration` are integers,
  `float64` coordinates and distances are idealised as rationals.
* The database is an explicit value of type `DB`; every repository method takes the
  database and returns its Go result together with the database after the statement ran.
* An `http.Handler` returns the `Response` it wrote.
* External packages (`golang-jwt/jwt/v5`, PostGIS, `strconv`, `uuid.Parse`) are taken as
  parameters, or follow their documented behaviour where that is said.
-/

namespace models

abbrev UUID := Nat

abbrev Time := Int

abbrev HazardType := String

abbrev HazardSeverity := String

/-- The Go struct `models.Hazard`. -/
structure Hazard where
  ID : UUID
  UserID : UUID
  Type_ : HazardType
  Latitude : ℚ
  Longitude : ℚ
  ImageURL : Option String
  Severity : HazardSeverity
  Description : Option String
  IsVerified : Bool
  VerifyCount : Int
  ReportedBy : Option String
  CreatedAt : Time
  UpdatedAt : Time
  Distance : Option ℚ
deriving DecidableEq, Repr

/-- The Go struct `models.User`. -/
structure User where
  ID : UUID
  Username : String
  Email : String
  PasswordHash : String
  Points : Int
  Avatar : Option String
  CreatedAt : Time
  UpdatedAt : Time
deriving DecidableEq, Repr

/-- The Go struct `models.UserCreate` (its `validate` tags are never evaluated by a handler). -/
structure UserCreate where
  Username : String
  Email : String
  Password : String
deriving DecidableEq, Repr

/-- The Go struct `models.UserLogin`. -/
structure UserLogin where
  Email : String
  Password : String
deriving DecidableEq, Repr

/-- The Go struct `models.AuthResponse`. -/
structure AuthResponse where
  User : User
  Token : String
  RefreshToken : String
deriving DecidableEq, Repr

/-- The Go struct `models.HazardQuery`, with the bounds its `validate` tags declare:
`latitude`, `longitude`, `min=0.1,max=50` for the radius, `min=1,max=100` for the limit. -/
structure HazardQuery where
  Latitude : ℚ
  Longitude : ℚ
  Radius : Option ℚ
  Limit : Option Int
deriving DecidableEq, Repr

/-- What the `validate` tags of `HazardQuery` ask for. No handler evaluates them. -/
def HazardQuery.tagsHold (q : HazardQuery) : Bool :=
  decide (-90 ≤ q.Latitude ∧ q.Latitude ≤ 90) &&
  decide (-180 ≤ q.Longitude ∧ q.Longitude ≤ 180) &&
  (match q.Radius with
   | none => true
   | some r => decide (1 / 10 ≤ r ∧ r ≤ 50)) &&
  (match q.Limit with
   | none => true
   | some l => decide (1 ≤ l ∧ l ≤ 100))

end models

open models

/-! ## The database -/

/-- A row of table `hazards`: the columns the statements of `repository.go` name. -/
structure HazardRow where
  id : UUID
  user_id : UUID
  type : HazardType
  latitude : ℚ
  longitude : ℚ
  image_url : Option String
  severity : HazardSeverity
  description : Option String
  is_verified : Bool
  verify_count : Int
  reported_by : Option String
  created_at : Time
  updated_at : Time
deriving DecidableEq, Repr

/-- A row of table `hazard_verifications`: the columns `VerifyHazard` inserts. -/
structure VerificationRow where
  hazard_id : UUID
  user_id : UUID
deriving DecidableEq, Repr

/-- The SQL database behind `*sql.DB`: the three tables the Go code reads and writes.
The table declarations (migrations) are not part of the Go sources; only what the
statements themselves rely on is modelled: the unique index on
`hazard_verifications (hazard_id, user_id)` that `ON CONFLICT (hazard_id, user_id)` names,
the primary key of `hazards`, and the unique keys of `users`. Foreign keys, column
defaults and triggers of the declarations are not in the sources and are not modelled, but
for the two defaults an insert relies on (`hazards.insertedRow`). -/
structure DB where
  users : List User
  hazards : List HazardRow
  hazard_verifications : List VerificationRow
deriving DecidableEq, Repr

/-- The errors that the claims validation of `golang-jwt/jwt/v5` collects. -/
inductive ClaimsError where
  | ErrTokenExpired
  | ErrTokenNotValidYet
deriving DecidableEq, Repr

/-- Errors a Go function of the backend can return: the two sentinels of `auth/jwt.go`,
the `fmt.Errorf("hazard not found")` of the repository, the errors of package
`golang-jwt/jwt/v5`, and errors of the SQL driver. Of the library's errors,
`ErrTokenUnverifiable` is joined with the error of the key function,
`ErrTokenUnverifiableMethod` is `ErrTokenUnverifiable` for a signing method that is
unavailable or unspecified, and `ErrTokenInvalidClaims` is joined with every error the
claims validation collected. -/
inductive Error where
  | ErrInvalidToken
  | ErrExpiredToken
  | hazardNotFound
  | ErrTokenMalformed
  | ErrTokenSignatureInvalid
  | ErrTokenInvalidClaims (errs : List ClaimsError)
  | ErrTokenUnverifiable (keyfunc : Error)
  | ErrTokenUnverifiableMethod
  | sql (msg : String)
deriving DecidableEq, Repr

/-- The body a handler writes: the text of `http.Error`, or the JSON value it encodes. -/
inductive Body where
  | text (msg : String)
  | message (msg : String)
  | auth (r : AuthResponse)
  | hazard (h : Hazard)
  | hazards (hs : List Hazard)
deriving DecidableEq, Repr

/-- What a handler writes to its `http.ResponseWriter`. -/
structure Response where
  status : Nat
  body : Body
deriving DecidableEq, Repr

/-- The call `http.Error(w, msg, code)`. -/
def httpError (msg : String) (code : Nat) : Response :=
  { status := code, body := .text msg }

/-- The values `AuthMiddleware` stores in the request context under `UserIDKey` and
`EmailKey`; a request that did not pass the middleware carries neither. -/
structure Context where
  user_id : Option UUID
  email : Option String
deriving DecidableEq, Repr

/-- The `rows.Scan` of `GetByID`: thirteen columns into a fresh `models.Hazard`. -/
def HazardRow.scan (r : HazardRow) : Hazard :=
  { ID := r.id, UserID := r.user_id, Type_ := r.type, Latitude := r.latitude,
    Longitude := r.longitude, ImageURL := r.image_url, Severity := r.severity,
    Description := r.description, IsVerified := r.is_verified, VerifyCount := r.verify_count,
    ReportedBy := r.reported_by, CreatedAt := r.created_at, UpdatedAt := r.updated_at,
    Distance := none }

namespace hazards

/-- `Repository.GetByID`: `SELECT ... FROM hazards WHERE id = $1`, first row;
`sql.ErrNoRows` becomes "hazard not found". -/
def GetByID (db : DB) (id : UUID) : Except Error Hazard :=
  match db.hazards.find? (fun r => r.id == id) with
  | none => .error .hazardNotFound
  | some r => .ok r.scan

/-- `Repository.Delete`: `DELETE FROM hazards WHERE id = $1`; zero affected rows is the
error "hazard not found". -/
def Delete (db : DB) (id : UUID) : Option Error × DB :=
  let kept := db.hazards.filter (fun r => r.id != id)
  let rows := db.hazards.length - kept.length
  if rows == 0 then (some .hazardNotFound, db)
  else (none, { db with hazards := kept })

/-- `Repository.VerifyHazard`:
`INSERT INTO hazard_verifications (hazard_id, user_id) VALUES ($1, $2)
 ON CONFLICT (hazard_id, user_id) DO NOTHING`.
The statement writes table `hazard_verifications` only; the error of `ExecContext` is
returned as it is, and a conflict is not an error. -/
def VerifyHazard (db : DB) (hazardID userID : UUID) : Option Error × DB :=
  let row : VerificationRow := { hazard_id := hazardID, user_id := userID }
  if row ∈ db.hazard_verifications then (none, db)
  else (none, { db with hazard_verifications := db.hazard_verifications ++ [row] })

end hazards

/-! ## Proximity query -/

/-- A PostGIS point, `ST_MakePoint(x, y)` with x the longitude and y the latitude. -/
structure Geo where
  x : ℚ
  y : ℚ
deriving DecidableEq, Repr

/-- The PostGIS functions the proximity query calls. `ST_Distance` on geographies (metres)
is a parameter; `ST_DWithin a b d` is, as PostGIS documents it, "distance at most d". -/
structure PostGIS where
  ST_Distance : Geo → Geo → ℚ

def PostGIS.ST_DWithin (gis : PostGIS) (a b : Geo) (d : ℚ) : Bool :=
  decide (gis.ST_Distance a b ≤ d)

def ST_MakePoint (x y : ℚ) : Geo :=
  { x := x, y := y }

/-- Modelled from the spec: the declaration of column `hazards.location` is not in the
sources (no statement of `repository.go` writes it); section 4.2 says a hazard is persisted
"with a spatial index key derived from (lat, lon)". -/
def HazardRow.location (r : HazardRow) : Geo :=
  ST_MakePoint r.longitude r.latitude

/-- The `rows.Scan` of `GetNearby`: thirteen columns and the computed `distance`. -/
def HazardRow.scanWithDistance (r : HazardRow) (distance : ℚ) : Hazard :=
  { r.scan with Distance := some distance }

namespace hazards

/-- The rows of the `SELECT` of `GetNearby` before `ORDER BY` and `LIMIT`: those with
`ST_DWithin(location, point, $3 * 1000)`, each with `ST_Distance(location, point) / 1000`. -/
def nearbyRows (gis : PostGIS) (db : DB) (lat lon radiusKm : ℚ) : List (HazardRow × ℚ) :=
  let point := ST_MakePoint lon lat
  (db.hazards.filter (fun r => gis.ST_DWithin r.location point (radiusKm * 1000))).map
    (fun r => (r, gis.ST_Distance r.location point / 1000))

/-- `Repository.GetNearby`: the query with `ORDER BY distance ASC LIMIT $4`, every row scanned
into a `models.Hazard` whose `Distance` points at the row's distance. PostgreSQL rejects a
negative `LIMIT`, and leaves the order of rows at equal distance open; here they keep the
order of the table. -/
def GetNearby (gis : PostGIS) (db : DB) (lat lon radiusKm : ℚ) (limit : Int) :
    Except Error (List Hazard) :=
  if limit < 0 then .error (.sql "LIMIT must not be negative")
  else
    let ordered := (nearbyRows gis db lat lon radiusKm).insertionSort (fun a b => a.2 ≤ b.2)
    .ok ((ordered.take limit.toNat).map (fun p => p.1.scanWithDistance p.2))

end hazards

/-! ## Sessions: `internal/auth` -/

namespace auth

/-- The Go struct `auth.Claims`: `user_id`, `email`, and the three dates of the embedded
`jwt.RegisteredClaims` that the code sets; each date is a pointer and may be nil. -/
structure Claims where
  UserID : UUID
  Email : String
  ExpiresAt : Option Time
  IssuedAt : Option Time
  NotBefore : Option Time
deriving DecidableEq, Repr

structure JWTManager where
  secretKey : String
  tokenExpiry : Int
  refreshExpiry : Int
deriving DecidableEq, Repr

/-- Whether `token.Method` is a `*jwt.SigningMethodHMAC`, another registered signing
method, or nil because the header names no registered method (`unavailable`). -/
inductive SigningMethod where
  | HMAC
  | other
  | unavailable
deriving DecidableEq, Repr

/-- The fields of `jwt.Token` that the code reads. -/
structure Token where
  Method : SigningMethod
  Claims : Claims
  Valid : Bool
deriving DecidableEq, Repr

/-- The primitives of package `golang-jwt/jwt/v5`, an external dependency: the precision of
`NewNumericDate`, signing with HS256, the decoding of the three segments of a token string
(`none` when it is malformed), and the verification of its signature under a key. -/
structure JWT where
  NewNumericDate : Time → Time
  SignedString : Claims → String → Except Error String
  decode : String → Option (SigningMethod × Claims)
  verify : SigningMethod → String → String → Bool

/-- The claims validation of `jwt/v5` with its default options: `exp` and `nbf` are checked
when present (no leeway), `iat` is not; every failed check adds its error, and the empty
list means the claims are valid. -/
def JWT.validateClaims (now : Time) (c : Claims) : List ClaimsError :=
  (match c.ExpiresAt with
   | some exp => if now < exp then [] else [.ErrTokenExpired]
   | none => []) ++
  (match c.NotBefore with
   | some nbf => if now < nbf then [.ErrTokenNotValidYet] else []
   | none => [])

/-- The function `jwt.ParseWithClaims` of `jwt/v5`, in the order of its documentation: decode
(a header without a registered signing method is unverifiable), call the key function,
verify the signature, validate the claims, set `Valid`. `now` is the clock reading of the
library's validator. -/
def JWT.ParseWithClaims (lib : JWT) (now : Time) (tokenString : String)
    (keyFunc : Token → Except Error String) : Except Error Token :=
  match lib.decode tokenString with
  | none => .error .ErrTokenMalformed
  | some (.unavailable, _) => .error .ErrTokenUnverifiableMethod
  | some (method, claims) =>
    let token : Token := { Method := method, Claims := claims, Valid := false }
    match keyFunc token with
    | .error e => .error (.ErrTokenUnverifiable e)
    | .ok key =>
      if lib.verify method tokenString key then
        if JWT.validateClaims now claims = [] then .ok { token with Valid := true }
        else .error (.ErrTokenInvalidClaims (JWT.validateClaims now claims))
      else .error .ErrTokenSignatureInvalid

/-- The outcome of a Go call that returns `(value, error)`: a value, an error, or a run-time
panic (a nil pointer dereference). -/
inductive Outcome (α : Type) where
  | ok (a : α)
  | err (e : Error)
  | panicked
deriving DecidableEq, Repr

/-- `JWTManager.GenerateToken`, at clock reading `now`. -/
def GenerateToken (lib : JWT) (m : JWTManager) (now : Time) (userID : UUID) (email : String) :
    Except Error String :=
  let claims : Claims :=
    { UserID := userID, Email := email,
      ExpiresAt := some (lib.NewNumericDate (now + m.tokenExpiry)),
      IssuedAt := some (lib.NewNumericDate now),
      NotBefore := some (lib.NewNumericDate now) }
  lib.SignedString claims m.secretKey

/-- `JWTManager.GenerateRefreshToken`, at clock reading `now`. -/
def GenerateRefreshToken (lib : JWT) (m : JWTManager) (now : Time) (userID : UUID)
    (email : String) : Except Error String :=
  let claims : Claims :=
    { UserID := userID, Email := email,
      ExpiresAt := some (lib.NewNumericDate (now + m.refreshExpiry)),
      IssuedAt := some (lib.NewNumericDate now),
      NotBefore := none }
  lib.SignedString claims m.secretKey

/-- The key function `ValidateToken` hands to the parser. -/
def keyFunc (m : JWTManager) (token : Token) : Except Error String :=
  if token.Method = .HMAC then .ok m.secretKey else .error .ErrInvalidToken

/-- `JWTManager.ValidateToken`. `libNow` is the clock the library reads while parsing, `now`
the later `time.Now()` of the explicit expiry check. The type assertion
`token.Claims.(*Claims)` succeeds, because the parser was given an `&Claims{}`.
`claims.ExpiresAt.Time` dereferences the pointer `ExpiresAt`. -/
def ValidateToken (lib : JWT) (m : JWTManager) (libNow now : Time) (tokenString : String) :
    Outcome Claims :=
  match lib.ParseWithClaims libNow tokenString (keyFunc m) with
  | .error e => .err e
  | .ok token =>
    if !token.Valid then .err .ErrInvalidToken
    else
      match token.Claims.ExpiresAt with
      | none => .panicked
      | some exp => if now > exp then .err .ErrExpiredToken else .ok token.Claims

/-- `strings.Split(s, " ")`: the substrings between the spaces of `s`. -/
def Split (s : String) : List String :=
  (s.toList.splitOn ' ').map String.mk

/-- What the handler returned by `AuthMiddleware` does with a request: it writes a response
itself, or it calls `next.ServeHTTP` with a context, or `ValidateToken` panics. -/
inductive Served where
  | responded (r : Response)
  | next (ctx : Context)
  | panicked
deriving DecidableEq, Repr

/-- `JWTManager.AuthMiddleware`; `authHeader` is `r.Header.Get("Authorization")`, the empty
string when the header is absent. -/
def AuthMiddleware (lib : JWT) (m : JWTManager) (libNow now : Time) (authHeader : String) :
    Served :=
  if authHeader = "" then
    .responded (httpError "Authorization header required" 401)
  else
    match Split authHeader with
    | [p0, token] =>
      if p0 ≠ "Bearer" then
        .responded (httpError "Invalid authorization header format" 401)
      else
        match ValidateToken lib m libNow now token with
        | .err _ => .responded (httpError "Invalid or expired token" 401)
        | .panicked => .panicked
        | .ok claims => .next { user_id := some claims.UserID, email := some claims.Email }
    | _ => .responded (httpError "Invalid authorization header format" 401)

def GetUserIDFromContext (ctx : Context) : Option UUID :=
  ctx.user_id

def GetEmailFromContext (ctx : Context) : Option String :=
  ctx.email

/-- Modelled from the spec: `auth.HashPassword` and `auth.CheckPassword` are called by the
handlers but their file is not among the sources; section 4.1 says the password is hashed
"with a slow, salted one-way function" and login compares it with the stored hash. They are
parameters; `salt` is the randomness of one hashing. -/
structure Passwords where
  HashPassword : String → Nat → Except Error String
  CheckPassword : String → String → Bool

end auth

/-! ## HTTP handlers: `internal/handlers` -/

namespace handlers

/-- `HazardHandler.Verify`. `ctx` is the request context, `idStr` the URL parameter `id`,
`Parse` the function `uuid.Parse`. -/
def Verify (Parse : String → Option UUID) (db : DB) (ctx : Context) (idStr : String) :
    Response × DB :=
  match auth.GetUserIDFromContext ctx with
  | none => (httpError "Unauthorized" 401, db)
  | some userID =>
    match Parse idStr with
    | none => (httpError "Invalid hazard ID" 400, db)
    | some hazardID =>
      match hazards.VerifyHazard db hazardID userID with
      | (some _, db') => (httpError "Failed to verify hazard" 500, db')
      | (none, db') => ({ status := 200, body := .message "Hazard verified" }, db')

/-- `HazardHandler.Delete`. The user id of the context is read and dropped
(`// TODO: Check if user owns the hazard before deleting`, `_ = userID`). -/
def Delete (Parse : String → Option UUID) (db : DB) (ctx : Context) (idStr : String) :
    Response × DB :=
  match auth.GetUserIDFromContext ctx with
  | none => (httpError "Unauthorized" 401, db)
  | some _userID =>
    match Parse idStr with
    | none => (httpError "Invalid hazard ID" 400, db)
    | some hazardID =>
      match hazards.Delete db hazardID with
      | (some _, db') => (httpError "Failed to delete hazard" 500, db')
      | (none, db') => ({ status := 200, body := .message "Hazard deleted" }, db')

/-- The arguments of one call of `repo.GetNearby`. -/
structure NearbyCall where
  lat : ℚ
  lon : ℚ
  radiusKm : ℚ
  limit : Int
deriving DecidableEq, Repr

/-- `HazardHandler.GetNearby`. `latStr`, `lonStr`, `radiusStr` are the query parameters
`lat`, `lon`, `radius` (empty when absent), `ParseFloat` is `strconv.ParseFloat(_, 64)`.
Besides the response, the calls made to the repository are returned. -/
def GetNearby (ParseFloat : String → Option ℚ) (gis : PostGIS) (db : DB)
    (latStr lonStr radiusStr : String) : Response × List NearbyCall :=
  if latStr = "" || lonStr = "" then
    (httpError "lat and lon parameters required" 400, [])
  else
    match ParseFloat latStr with
    | none => (httpError "Invalid latitude" 400, [])
    | some lat =>
      match ParseFloat lonStr with
      | none => (httpError "Invalid longitude" 400, [])
      | some lon =>
        match (if radiusStr ≠ "" then ParseFloat radiusStr else some 5) with
        | none => (httpError "Invalid radius" 400, [])
        | some radius =>
          let limit : Int := 100
          let call : NearbyCall := { lat := lat, lon := lon, radiusKm := radius, limit := limit }
          match hazards.GetNearby gis db lat lon radius limit with
          | .error _ => (httpError "Failed to fetch hazards" 500, [call])
          | .ok hs => ({ status := 200, body := .hazards hs }, [call])

/-- The `INSERT INTO users ... RETURNING created_at, updated_at` of `Register`: it fails when
a row with the same id, username or email exists. `now` is the time the database stamps. -/
def insertUser (db : DB) (user : User) (now : Time) : Except Error (User × DB) :=
  if db.users.any (fun u => u.ID == user.ID || u.Username == user.Username
      || u.Email == user.Email) then
    .error (.sql "duplicate key value violates unique constraint")
  else
    let stored : User := { user with CreatedAt := now, UpdatedAt := now }
    .ok (stored, { db with users := db.users ++ [stored] })

/-- `AuthHandler.Register`. `body` is the decoded request (`none` when decoding fails),
`newID` the value of `uuid.New()`, `salt` the randomness of the hashing, `now` the clock. -/
def Register (pw : auth.Passwords) (lib : auth.JWT) (m : auth.JWTManager) (db : DB)
    (body : Option UserCreate) (newID : UUID) (salt : Nat) (now : Time) : Response × DB :=
  match body with
  | none => (httpError "Invalid request body" 400, db)
  | some req =>
    match pw.HashPassword req.Password salt with
    | .error _ => (httpError "Failed to hash password" 500, db)
    | .ok passwordHash =>
      let user : User :=
        { ID := newID, Username := req.Username, Email := req.Email,
          PasswordHash := passwordHash, Points := 0, Avatar := none,
          CreatedAt := 0, UpdatedAt := 0 }
      match insertUser db user now with
      | .error _ => (httpError "Email or username already exists" 409, db)
      | .ok (user, db') =>
        match auth.GenerateToken lib m now user.ID user.Email with
        | .error _ => (httpError "Failed to generate token" 500, db')
        | .ok token =>
          let refreshToken :=
            match auth.GenerateRefreshToken lib m now user.ID user.Email with
            | .ok t => t
            | .error _ => ""
          ({ status := 200,
             body := .auth { User := user, Token := token, RefreshToken := refreshToken } }, db')

/-- `AuthHandler.Login`. `body` is the decoded request, `now` the clock. The `SELECT` takes
the first row of `users` with the requested email; `sql.ErrNoRows` and a failed
`CheckPassword` write the same `http.Error`. A failure of the database driver (the branch
"Database error") does not occur in a `DB` value. -/
def Login (pw : auth.Passwords) (lib : auth.JWT) (m : auth.JWTManager) (db : DB)
    (body : Option UserLogin) (now : Time) : Response :=
  match body with
  | none => httpError "Invalid request body" 400
  | some req =>
    match db.users.find? (fun u => u.Email == req.Email) with
    | none => httpError "Invalid credentials" 401
    | some user =>
      if !pw.CheckPassword req.Password user.PasswordHash then
        httpError "Invalid credentials" 401
      else
        match auth.GenerateToken lib m now user.ID user.Email with
        | .error _ => httpError "Failed to generate token" 500
        | .ok token =>
          let refreshToken :=
            match auth.GenerateRefreshToken lib m now user.ID user.Email with
            | .ok t => t
            | .error _ => ""
          { status := 200,
            body := .auth { User := user, Token := token, RefreshToken := refreshToken } }

end handlers

/-! ## Observations used by the statements -/

namespace hazards

/-- The verification counter a client reads for hazard `id`: the `VerifyCount` of `GetByID`. -/
def verifyCount (db : DB) (id : UUID) : Option Int :=
  match GetByID db id with
  | .ok h => some h.VerifyCount
  | .error _ => none

/-- A sequence of `VerifyHazard` calls, one per (hazard id, observer id) pair, in order. -/
def verifyAll (db : DB) : List (UUID × UUID) → DB
  | [] => db
  | (hazardID, userID) :: rest => verifyAll (VerifyHazard db hazardID userID).2 rest

end hazards

/-! ## Example values

Stores, requests and stand-ins for the external functions, used where a statement is
evaluated at a concrete input. -/

/-- A hazard reported by user 1. -/
def pothole : HazardRow :=
  { id := 1, user_id := 1, type := "pothole", latitude := 0, longitude := 0,
    image_url := none, severity := "high", description := none, is_verified := false,
    verify_count := 0, reported_by := none, created_at := 0, updated_at := 0 }

/-- A store holding the one hazard `pothole` and no votes. -/
def store1 : DB :=
  { users := [], hazards := [pothole], hazard_verifications := [] }

/-- A stand-in for `uuid.Parse` on the ids of the examples: a one-digit string is its digit. -/
def parseDigit (s : String) : Option UUID :=
  match s.toList with
  | [c] => if c.isDigit then some (c.toNat - 48) else none
  | _ => none

/-- A stand-in for `ST_Distance` in the examples: 111 km per degree along each axis. -/
def gridGIS : PostGIS :=
  { ST_Distance := fun a b => 111000 * (|a.x - b.x| + |a.y - b.y|) }

/-- A store with the hazard `pothole` at (0, 0) and a second hazard one degree east. -/
def store2 : DB :=
  { users := [],
    hazards := [pothole, { pothole with id := 2, user_id := 2, longitude := 1 }],
    hazard_verifications := [] }

/-- A stand-in for `strconv.ParseFloat` on the inputs of the examples: an optional minus sign
followed by decimal digits. -/
def parseDecimal (s : String) : Option ℚ :=
  let digits (cs : List Char) : Option ℚ :=
    if cs ≠ [] ∧ cs.all Char.isDigit then
      some ((cs.foldl (fun acc c => 10 * acc + (c.toNat - 48)) 0 : Nat) : ℚ)
    else none
  match s.toList with
  | '-' :: cs => (digits cs).map (fun q => -q)
  | cs => digits cs

/-- The payload of the stand-in token: the claims as an encodable tuple. -/
def plainPayload (c : auth.Claims) : Nat × List Nat × Option Int × Option Int × Option Int :=
  (c.UserID, c.Email.toList.map Char.toNat, c.ExpiresAt, c.IssuedAt, c.NotBefore)

/-- A stand-in for signing, without any security: a run of the letter a whose length encodes
the claims, a bar, and the key in the clear. -/
def plainSign (c : auth.Claims) (key : String) : String :=
  String.mk (List.replicate (Encodable.encode (plainPayload c)) 'a' ++ '|' :: key.toList)

/-- The decoder of the stand-in tokens; a string without the bar after the run is malformed. -/
def plainDecode (s : String) : Option (auth.SigningMethod × auth.Claims) :=
  match s.toList.dropWhile (fun ch => ch == 'a') with
  | '|' :: _ =>
    match (Encodable.decode (s.toList.takeWhile (fun ch => ch == 'a')).length :
        Option (Nat × List Nat × Option Int × Option Int × Option Int)) with
    | some (uid, email, exp, iat, nbf) =>
      some (.HMAC, { UserID := uid, Email := String.mk (email.map Char.ofNat),
                     ExpiresAt := exp, IssuedAt := iat, NotBefore := nbf })
    | none => none
  | _ => none

/-- The signature check of the stand-in tokens: the part after the run is the bar and the key. -/
def plainVerify (_method : auth.SigningMethod) (s key : String) : Bool :=
  s.toList.dropWhile (fun ch => ch == 'a') == '|' :: key.toList

/-- The stand-in JWT package; times are nanoseconds and `NewNumericDate` truncates to seconds. -/
def plainJWT : auth.JWT :=
  { NewNumericDate := fun t => t / 1000000000 * 1000000000,
    SignedString := fun c key => .ok (plainSign c key),
    decode := plainDecode,
    verify := plainVerify }

/-- A stand-in for the password hash, without any security: the hash is the reversed
password. -/
def reversePasswords : auth.Passwords :=
  { HashPassword := fun p _salt => .ok (String.mk p.toList.reverse),
    CheckPassword := fun p h => h == String.mk p.toList.reverse }

/-- A manager with secret "secret", access tokens of one hour and refresh tokens of one day
(nanoseconds). -/
def manager : auth.JWTManager :=
  { secretKey := "secret", tokenExpiry := 3600000000000, refreshExpiry := 86400000000000 }

/-- Claims of user 5 that expire ten seconds after the epoch. -/
def oldClaims : auth.Claims :=
  { UserID := 5, Email := "a@x", ExpiresAt := some 10000000000, IssuedAt := some 0,
    NotBefore := some 0 }

/-- The user row that registering alice with id 5 at time 0 stores. -/
def alice : User :=
  { ID := 5, Username := "alice", Email := "alice@x.com",
    PasswordHash := String.mk "password123".toList.reverse, Points := 0, Avatar := none,
    CreatedAt := 0, UpdatedAt := 0 }

/-- The response body of registering alice at time 0 with the stand-in codec. -/
def aliceRegistered : AuthResponse :=
  { User := alice,
    Token := plainSign
      { UserID := 5, Email := "alice@x.com",
        ExpiresAt := some (plainJWT.NewNumericDate (0 + manager.tokenExpiry)),
        IssuedAt := some (plainJWT.NewNumericDate 0),
        NotBefore := some (plainJWT.NewNumericDate 0) } manager.secretKey,
    RefreshToken := plainSign
      { UserID := 5, Email := "alice@x.com",
        ExpiresAt := some (plainJWT.NewNumericDate (0 + manager.refreshExpiry)),
        IssuedAt := some (plainJWT.NewNumericDate 0),
        NotBefore := none } manager.secretKey }

/-- A store whose only user is `alice`. -/
def store3 : DB :=
  { users := [alice], hazards := [], hazard_verifications := [] }

/-! ## Hazard creation and the operations of the repository -/

namespace models

def HazardTypePothole : HazardType := "pothole"

def HazardTypeDebris : HazardType := "debris"

def HazardTypeAccident : HazardType := "accident"

def HazardTypeConstruction : HazardType := "construction"

def HazardTypeOther : HazardType := "other"

def HazardSeverityLow : HazardSeverity := "low"

def HazardSeverityMedium : HazardSeverity := "medium"

def HazardSeverityHigh : HazardSeverity := "high"

/-- The Go struct `models.HazardCreate`. -/
structure HazardCreate where
  Type_ : HazardType
  Latitude : ℚ
  Longitude : ℚ
  Severity : HazardSeverity
  Description : Option String
  ImageBase64 : Option String
deriving DecidableEq, Repr

/-- The bounds and enumerations that the `validate` tags of `HazardCreate` declare:
`oneof=pothole debris accident construction other`, `latitude`, `longitude`,
`oneof=low medium high`, `max=500`. No handler evaluates them. -/
def HazardCreate.tagsHold (c : HazardCreate) : Bool :=
  decide (c.Type_ ∈ [HazardTypePothole, HazardTypeDebris, HazardTypeAccident,
    HazardTypeConstruction, HazardTypeOther]) &&
  decide (-90 ≤ c.Latitude ∧ c.Latitude ≤ 90) &&
  decide (-180 ≤ c.Longitude ∧ c.Longitude ≤ 180) &&
  decide (c.Severity ∈ [HazardSeverityLow, HazardSeverityMedium, HazardSeverityHigh]) &&
  (match c.Description with
   | none => true
   | some d => decide (d.length ≤ 500))

end models

namespace hazards

/-- Modelled from the spec: the `INSERT` of `Create` names nine columns and neither
`is_verified` nor `verify_count`; their column defaults are in the table declaration, which
is not in the sources. Section 4.2 says that create "sets confirmation flag false and
verification counter 0". `now` is the time the database stamps as `created_at` and
`updated_at`. -/
def insertedRow (hazard : Hazard) (now : Time) : HazardRow :=
  { id := hazard.ID, user_id := hazard.UserID, type := hazard.Type_,
    latitude := hazard.Latitude, longitude := hazard.Longitude, image_url := hazard.ImageURL,
    severity := hazard.Severity, description := hazard.Description,
    is_verified := false, verify_count := 0,
    reported_by := hazard.ReportedBy, created_at := now, updated_at := now }

/-- `Repository.Create`: `INSERT INTO hazards (id, user_id, type, latitude, longitude,
image_url, severity, description, reported_by) VALUES (...) RETURNING created_at, updated_at`.
The insert fails when a row with the id exists (primary key); on success the two returned
times are scanned into the hazard. -/
def Create (db : DB) (hazard : Hazard) (now : Time) : Except Error (Hazard × DB) :=
  if db.hazards.any (fun r => r.id == hazard.ID) then
    .error (.sql "duplicate key value violates unique constraint")
  else
    .ok ({ hazard with CreatedAt := now, UpdatedAt := now },
         { db with hazards := db.hazards ++ [insertedRow hazard now] })

/-- One call of a method of `Repository` that the claims name, with its arguments. -/
inductive Op where
  | Create (hazard : Hazard) (now : Time)
  | GetByID (id : UUID)
  | GetNearby (lat lon radiusKm : ℚ) (limit : Int)
  | Delete (id : UUID)
  | VerifyHazard (hazardID userID : UUID)
deriving DecidableEq, Repr

/-- The database after one call: `GetByID` and `GetNearby` only run a `SELECT`; a failed
`Create` or `Delete` leaves the database as it was. -/
def Op.run (db : DB) : Op → DB
  | .Create hazard now =>
    match hazards.Create db hazard now with
    | .ok (_, db') => db'
    | .error _ => db
  | .GetByID _ => db
  | .GetNearby _ _ _ _ => db
  | .Delete id => (hazards.Delete db id).2
  | .VerifyHazard hazardID userID => (hazards.VerifyHazard db hazardID userID).2

end hazards

namespace handlers

/-- `HazardHandler.Create`. `body` is the decoded request (`none` when decoding fails),
`newID` the value of `uuid.New()`, `now` the clock of the database. The image upload is a
`TODO` of the source, so `ImageURL` stays nil. The source writes the status with
`w.WriteStatus(http.StatusCreated)`; the status is taken as 201. -/
def Create (db : DB) (ctx : Context) (body : Option HazardCreate) (newID : UUID)
    (now : Time) : Response × DB :=
  match auth.GetUserIDFromContext ctx with
  | none => (httpError "Unauthorized" 401, db)
  | some userID =>
    match body with
    | none => (httpError "Invalid request body" 400, db)
    | some req =>
      let hazard : Hazard :=
        { ID := newID, UserID := userID, Type_ := req.Type_, Latitude := req.Latitude,
          Longitude := req.Longitude, ImageURL := none, Severity := req.Severity,
          Description := req.Description, IsVerified := false, VerifyCount := 0,
          ReportedBy := none, CreatedAt := 0, UpdatedAt := 0, Distance := none }
      match hazards.Create db hazard now with
      | .error _ => (httpError "Failed to create hazard" 500, db)
      | .ok (hazard, db') => ({ status := 201, body := .hazard hazard }, db')

end handlers

/-- A create request outside every bound: latitude 91, longitude 181, type "volcano",
severity "extreme". -/
def badCreate : HazardCreate :=
  { Type_ := "volcano", Latitude := 91, Longitude := 181, Severity := "extreme",
    Description := none, ImageBase64 := none }

/-- A create request for a pothole in San Francisco. -/
def goodCreate : HazardCreate :=
  { Type_ := "pothole", Latitude := 377749 / 10000, Longitude := -1224194 / 10000,
    Severity := "high", Description := none, ImageBase64 := none }

/-- A store holding one hazard whose confirmation flag is set. -/
def store4 : DB :=
  { users := [], hazards := [{ pothole with is_verified := true, verify_count := 3 }],
    hazard_verifications := [] }

/-- Claims of user 5 without an expires-at. -/
def openClaims : auth.Claims :=
  { UserID := 5, Email := "a@x", ExpiresAt := none, IssuedAt := some 0, NotBefore := some 0 }

/-- The claims of the access token of alice's login at 0.9 s. -/
def aliceLoginClaims : auth.Claims :=
  { UserID := 5, Email := "alice@x.com",
    ExpiresAt := some (plainJWT.NewNumericDate (900000000 + manager.tokenExpiry)),
    IssuedAt := some (plainJWT.NewNumericDate 900000000),
    NotBefore := some (plainJWT.NewNumericDate 900000000) }

/-- The response body of alice's login at 0.9 s with the stand-in codec. -/
def aliceLoggedIn : AuthResponse :=
  { User := alice,
    Token := plainSign aliceLoginClaims manager.secretKey,
    RefreshToken := plainSign
      { UserID := 5, Email := "alice@x.com",
        ExpiresAt := some (plainJWT.NewNumericDate (900000000 + manager.refreshExpiry)),
        IssuedAt := some (plainJWT.NewNumericDate 900000000),
        NotBefore := none } manager.secretKey }

/-! # Theorems -/

/-! ## Verification ledger -/

theorem VerifyHazard_hazards (db : DB) (H O : UUID) :
    (hazards.VerifyHazard db H O).2.hazards = db.hazards := by
  simp only [hazards.VerifyHazard]
  split <;> rfl

theorem VerifyHazard_fresh (db : DB) (H O : UUID)
    (hnew : ({ hazard_id := H, user_id := O } : VerificationRow) ∉ db.hazard_verifications) :
    hazards.VerifyHazard db H O =
      (none, { db with hazard_verifications :=
        db.hazard_verifications ++ [{ hazard_id := H, user_id := O }] }) := by
  unfold hazards.VerifyHazard
  simp [hnew]

theorem VerifyHazard_duplicate (db : DB) (H O : UUID)
    (hold : ({ hazard_id := H, user_id := O } : VerificationRow) ∈ db.hazard_verifications) :
    hazards.VerifyHazard db H O = (none, db) := by
  unfold hazards.VerifyHazard
  simp [hold]

theorem GetByID_congr (db db' : DB) (h : db'.hazards = db.hazards) (id : UUID) :
    hazards.GetByID db' id = hazards.GetByID db id := by
  unfold hazards.GetByID
  rw [h]

theorem VerifyHazard_nodup (db : DB) (H O : UUID) (hnd : db.hazard_verifications.Nodup) :
    (hazards.VerifyHazard db H O).2.hazard_verifications.Nodup := by
  by_cases hmem : ({ hazard_id := H, user_id := O } : VerificationRow) ∈ db.hazard_verifications
  · rw [VerifyHazard_duplicate db H O hmem]
    exact hnd
  · rw [VerifyHazard_fresh db H O hmem]
    show (db.hazard_verifications ++ [({ hazard_id := H, user_id := O } : VerificationRow)]).Nodup
    rw [List.nodup_append]
    refine ⟨hnd, List.nodup_singleton _, ?_⟩
    intro a ha hb
    rw [List.mem_singleton] at hb
    exact hmem (hb ▸ ha)

theorem verifyAll_nodup (calls : List (UUID × UUID)) :
    ∀ db : DB, db.hazard_verifications.Nodup →
      (hazards.verifyAll db calls).hazard_verifications.Nodup := by
  induction calls with
  | nil => intro db hnd; exact hnd
  | cons c rest ih =>
    intro db hnd
    obtain ⟨H, O⟩ := c
    exact ih _ (VerifyHazard_nodup db H O hnd)

/-- C2: from a store whose ledger satisfies its unique index, every sequence of
`VerifyHazard` calls leaves at most one ledger record per (hazard id, observer id) pair; and
a call for a pair already in the ledger returns no error and leaves the ledger and the
counter of the hazard unchanged (the whole database is unchanged). -/
theorem C2_ledger_unique (db : DB) (calls : List (UUID × UUID))
    (hnd : db.hazard_verifications.Nodup) :
    (∀ row : VerificationRow, (hazards.verifyAll db calls).hazard_verifications.count row ≤ 1) ∧
    (∀ H O : UUID,
      ({ hazard_id := H, user_id := O } : VerificationRow) ∈
          (hazards.verifyAll db calls).hazard_verifications →
        (hazards.VerifyHazard (hazards.verifyAll db calls) H O).1 = none ∧
        (hazards.VerifyHazard (hazards.verifyAll db calls) H O).2.hazard_verifications
          = (hazards.verifyAll db calls).hazard_verifications ∧
        hazards.verifyCount (hazards.VerifyHazard (hazards.verifyAll db calls) H O).2 H
          = hazards.verifyCount (hazards.verifyAll db calls) H ∧
        (hazards.VerifyHazard (hazards.verifyAll db calls) H O).2
          = hazards.verifyAll db calls) := by
  constructor
  · intro row
    exact List.nodup_iff_count_le_one.mp (verifyAll_nodup calls db hnd) row
  · intro H O hmem
    rw [VerifyHazard_duplicate _ H O hmem]
    exact ⟨rfl, rfl, rfl, rfl⟩

/-- Witness of C2: two observers vote on hazard 1 and the first one votes again; the ledger
holds the pair (1, 7) once. -/
theorem C2_ledger_unique_witness :
    (hazards.verifyAll store1 [(1, 7), (1, 8), (1, 7)]).hazard_verifications.count
      ({ hazard_id := 1, user_id := 7 } : VerificationRow) ≤ 1 :=
  (C2_ledger_unique store1 [(1, 7), (1, 8), (1, 7)] (by simp [store1])).1 _

/-! ## Deletion -/

theorem Delete_removes (db : DB) (id : UUID) (hex : ∃ r ∈ db.hazards, r.id = id) :
    hazards.Delete db id =
      (none, { db with hazards := db.hazards.filter (fun r => r.id != id) }) := by
  obtain ⟨r, hr, hid⟩ := hex
  have hlt : (db.hazards.filter (fun r => r.id != id)).length < db.hazards.length := by
    apply List.length_filter_lt_length_iff_exists.mpr
    exact ⟨r, hr, by simp [hid]⟩
  simp only [hazards.Delete]
  have hne : (db.hazards.length - (db.hazards.filter (fun r => r.id != id)).length == 0)
      = false := by
    rw [beq_eq_false_iff_ne]
    omega
  rw [hne]
  rfl

/-- C3, what the code does: for every hazard H of the store and every authenticated user U,
the reporter of H or not, `HazardHandler.Delete` answers 200 "Hazard deleted", never 403, and
no row with the id of H is left in the store. -/
theorem C3_delete_ignores_owner (Parse : String → Option UUID) (db : DB) (ctx : Context)
    (idStr : String) (U : UUID) (r : HazardRow)
    (hctx : ctx.user_id = some U) (hparse : Parse idStr = some r.id)
    (hr : r ∈ db.hazards) :
    (handlers.Delete Parse db ctx idStr).1 = { status := 200, body := .message "Hazard deleted" } ∧
    (handlers.Delete Parse db ctx idStr).1.status ≠ 403 ∧
    (∀ r' ∈ (handlers.Delete Parse db ctx idStr).2.hazards, r'.id ≠ r.id) ∧
    hazards.GetByID (handlers.Delete Parse db ctx idStr).2 r.id = .error .hazardNotFound := by
  have hdel := Delete_removes db r.id ⟨r, hr, rfl⟩
  have hrun : handlers.Delete Parse db ctx idStr =
      ({ status := 200, body := .message "Hazard deleted" },
        { db with hazards := db.hazards.filter (fun r' => r'.id != r.id) }) := by
    simp only [handlers.Delete, auth.GetUserIDFromContext, hctx, hparse, hdel]
  rw [hrun]
  refine ⟨rfl, by simp, ?_, ?_⟩
  · intro r' hr'
    simpa using (List.mem_filter.mp hr').2
  · simp only [hazards.GetByID]
    have : List.find? (fun r' => r'.id == r.id)
        (db.hazards.filter (fun r' => r'.id != r.id)) = none := by
      rw [List.find?_eq_none]
      intro x hx
      have := (List.mem_filter.mp hx).2
      simpa using this
    rw [this]

/-- Witness of C3: user 2 deletes the hazard `pothole` that user 1 reported; the answer is
not 403 and the hazard is gone. -/
theorem C3_delete_ignores_owner_witness :
    pothole.user_id ≠ 2 ∧
    (handlers.Delete parseDigit store1 { user_id := some 2, email := none } "1").1.status
      ≠ 403 ∧
    hazards.GetByID
      (handlers.Delete parseDigit store1 { user_id := some 2, email := none } "1").2 pothole.id
      = .error .hazardNotFound :=
  ⟨by decide,
   (C3_delete_ignores_owner parseDigit store1 { user_id := some 2, email := none } "1" 2
    pothole rfl rfl (by simp [store1])).2.1,
   (C3_delete_ignores_owner parseDigit store1 { user_id := some 2, email := none } "1" 2
    pothole rfl rfl (by simp [store1])).2.2.2⟩

/-! ## Proximity query: order, limit, radius -/

theorem nearbyRows_distance (gis : PostGIS) (db : DB) (lat lon radiusKm : ℚ)
    (p : HazardRow × ℚ) (hp : p ∈ hazards.nearbyRows gis db lat lon radiusKm) :
    p.1 ∈ db.hazards ∧
    p.2 = gis.ST_Distance p.1.location (ST_MakePoint lon lat) / 1000 ∧
    p.2 ≤ radiusKm := by
  simp only [hazards.nearbyRows, List.mem_map, List.mem_filter] at hp
  obtain ⟨r, ⟨hr, hwithin⟩, rfl⟩ := hp
  refine ⟨hr, rfl, ?_⟩
  have hle : gis.ST_Distance r.location (ST_MakePoint lon lat) ≤ radiusKm * 1000 := by
    simpa [PostGIS.ST_DWithin] using hwithin
  show gis.ST_Distance r.location (ST_MakePoint lon lat) / 1000 ≤ radiusKm
  rw [div_le_iff₀ (by norm_num)]
  exact hle

theorem orderByDistance_sorted (rows : List (HazardRow × ℚ)) :
    (rows.insertionSort (fun a b => a.2 ≤ b.2)).Sorted (fun a b => a.2 ≤ b.2) := by
  haveI : IsTotal (HazardRow × ℚ) (fun a b => a.2 ≤ b.2) := ⟨fun a b => le_total a.2 b.2⟩
  haveI : IsTrans (HazardRow × ℚ) (fun a b => a.2 ≤ b.2) :=
    ⟨fun _ _ _ hab hbc => le_trans hab hbc⟩
  exact List.sorted_insertionSort _ rows

theorem GetNearby_ok (gis : PostGIS) (db : DB) (lat lon radiusKm : ℚ) (limit : Int)
    (hlimit : 0 ≤ limit) :
    hazards.GetNearby gis db lat lon radiusKm limit =
      .ok ((((hazards.nearbyRows gis db lat lon radiusKm).insertionSort
        (fun a b => a.2 ≤ b.2)).take limit.toNat).map (fun p => p.1.scanWithDistance p.2)) := by
  simp only [hazards.GetNearby]
  rw [if_neg (by omega)]

/-- C4: `GetNearby` fails only for a negative limit; otherwise the sequence it returns is in
ascending order of distance (every element's distance is at most that of every later one),
has at most `limit` elements, and every element carries as `Distance` its own distance in
kilometres from the query point. -/
theorem C4_nearby_ordered_limited (gis : PostGIS) (db : DB) (lat lon radiusKm : ℚ)
    (limit : Int) :
    match hazards.GetNearby gis db lat lon radiusKm limit with
    | .error _ => limit < 0
    | .ok hs =>
      hs.Pairwise (fun a b => ∃ da db, a.Distance = some da ∧ b.Distance = some db ∧ da ≤ db) ∧
      (hs.length : Int) ≤ limit ∧
      ∀ h ∈ hs, h.Distance = some
        (gis.ST_Distance (ST_MakePoint h.Longitude h.Latitude) (ST_MakePoint lon lat) / 1000) := by
  by_cases hlimit : limit < 0
  · simp only [hazards.GetNearby, if_pos hlimit]
    exact hlimit
  · rw [GetNearby_ok gis db lat lon radiusKm limit (by omega)]
    refine ⟨?_, ?_, ?_⟩
    · rw [List.pairwise_map]
      have hsorted := orderByDistance_sorted (hazards.nearbyRows gis db lat lon radiusKm)
      have htake := List.Pairwise.sublist (List.take_sublist limit.toNat _) hsorted
      exact htake.imp (fun {a b} hab => ⟨a.2, b.2, rfl, rfl, hab⟩)
    · rw [List.length_map, List.length_take]
      have : (limit.toNat : Int) = limit := Int.toNat_of_nonneg (by omega)
      omega
    · intro h hh
      rw [List.mem_map] at hh
      obtain ⟨p, hp, rfl⟩ := hh
      have hp' : p ∈ hazards.nearbyRows gis db lat lon radiusKm :=
        (List.perm_insertionSort _ _).subset (List.mem_of_mem_take hp)
      have := (nearbyRows_distance gis db lat lon radiusKm p hp').2.1
      simp only [HazardRow.scanWithDistance, HazardRow.scan, HazardRow.location] at this ⊢
      rw [this]

/-- C5, as stated, fails: with limit 0 the query at the position of the stored hazard
`pothole`, radius 1 km, returns the empty sequence, which does not include the hazard. -/
theorem C5_limit_excludes_hazard :
    pothole ∈ store2.hazards ∧ (0 : ℚ) ≤ 1 ∧
    hazards.GetNearby gridGIS store2 pothole.latitude pothole.longitude 1 0 = .ok [] := by
  refine ⟨by simp [store2], by norm_num, ?_⟩
  simp [hazards.GetNearby]

theorem mem_take_of_sorted (l : List (HazardRow × ℚ)) (x : HazardRow × ℚ) :
    ∀ n : Nat, l.Sorted (fun a b => a.2 ≤ b.2) → x ∈ l →
      l.countP (fun p => decide (p.2 ≤ x.2)) ≤ n → x ∈ l.take n := by
  induction l with
  | nil => intro n _ hx; simp at hx
  | cons a rest ih =>
    intro n hs hx hcount
    have ha : a.2 ≤ x.2 := by
      rcases List.mem_cons.mp hx with h | h
      · rw [h]
      · exact List.rel_of_sorted_cons hs x h
    have hcons : (a :: rest).countP (fun p => decide (p.2 ≤ x.2))
        = rest.countP (fun p => decide (p.2 ≤ x.2)) + 1 := by
      rw [List.countP_cons_of_pos]
      simpa using ha
    rw [hcons] at hcount
    cases n with
    | zero => omega
    | succ k =>
      rw [List.take_succ_cons]
      rcases List.mem_cons.mp hx with h | h
      · rw [h]; exact List.mem_cons_self _ _
      · exact List.mem_cons_of_mem _ (ih k (List.Sorted.of_cons hs) h (by omega))

theorem nearbyRows_count_le (gis : PostGIS) (db : DB) (lat lon radiusKm : ℚ)
    (hnonneg : ∀ p q : Geo, 0 ≤ gis.ST_Distance p q) :
    (hazards.nearbyRows gis db lat lon radiusKm).countP (fun p => decide (p.2 ≤ 0))
      ≤ (db.hazards.filter (fun r =>
          decide (gis.ST_Distance r.location (ST_MakePoint lon lat) = 0))).length := by
  rw [← List.countP_eq_length_filter]
  simp only [hazards.nearbyRows, List.countP_map, List.countP_filter]
  apply List.countP_mono_left
  intro r _ hr
  simp only [Function.comp_apply, Bool.and_eq_true, decide_eq_true_eq] at hr ⊢
  have hle : gis.ST_Distance r.location (ST_MakePoint lon lat) ≤ 0 := by
    have := hr.1
    rw [div_le_iff₀ (by norm_num)] at this
    simpa using this
  exact le_antisymm hle (hnonneg _ _)

/-- C5, amended: for a stored hazard H, a radius R >= 0 and a limit >= 0, the query at the
position of H returns a sequence in which no hazard is farther than R from the query point,
and which includes H (at distance 0) whenever at most `limit` stored hazards are at distance
0 from the query point. `hself` and `hnonneg` are the laws of the distance function that a
point is at distance 0 from itself and that no distance is negative. -/
theorem C5_nearby_includes_within_limit (gis : PostGIS) (db : DB) (H : HazardRow)
    (R : ℚ) (limit : Int)
    (hself : ∀ p : Geo, gis.ST_Distance p p = 0)
    (hnonneg : ∀ p q : Geo, 0 ≤ gis.ST_Distance p q)
    (hH : H ∈ db.hazards) (hR : 0 ≤ R) (hlimit : 0 ≤ limit) :
    ∃ hs, hazards.GetNearby gis db H.latitude H.longitude R limit = .ok hs ∧
      (∀ h ∈ hs, ∃ d, h.Distance = some d ∧
        d = gis.ST_Distance (ST_MakePoint h.Longitude h.Latitude)
              (ST_MakePoint H.longitude H.latitude) / 1000 ∧
        d ≤ R) ∧
      (((db.hazards.filter (fun r => decide (gis.ST_Distance r.location
            (ST_MakePoint H.longitude H.latitude) = 0))).length : Int) ≤ limit →
        H.scanWithDistance 0 ∈ hs) := by
  refine ⟨_, GetNearby_ok gis db H.latitude H.longitude R limit hlimit, ?_, ?_⟩
  · intro h hh
    rw [List.mem_map] at hh
    obtain ⟨p, hp, rfl⟩ := hh
    have hp' : p ∈ hazards.nearbyRows gis db H.latitude H.longitude R :=
      (List.perm_insertionSort _ _).subset (List.mem_of_mem_take hp)
    obtain ⟨_, hd, hle⟩ := nearbyRows_distance gis db H.latitude H.longitude R p hp'
    exact ⟨p.2, rfl, hd, hle⟩
  · intro hcount
    rw [List.mem_map]
    refine ⟨(H, 0), ?_, rfl⟩
    have hmem : (H, (0 : ℚ)) ∈ hazards.nearbyRows gis db H.latitude H.longitude R := by
      simp only [hazards.nearbyRows, List.mem_map, List.mem_filter]
      refine ⟨H, ⟨hH, ?_⟩, ?_⟩
      · have : gis.ST_Distance H.location (ST_MakePoint H.longitude H.latitude) = 0 :=
          hself _
        simp only [PostGIS.ST_DWithin, this, decide_eq_true_eq]
        positivity
      · have : gis.ST_Distance H.location (ST_MakePoint H.longitude H.latitude) = 0 :=
          hself _
        rw [this]
        norm_num
    apply mem_take_of_sorted _ (H, 0) limit.toNat
      (orderByDistance_sorted (hazards.nearbyRows gis db H.latitude H.longitude R))
      ((List.perm_insertionSort _ _).mem_iff.mpr hmem)
    rw [(List.perm_insertionSort _ _).countP_eq]
    have hle : (hazards.nearbyRows gis db H.latitude H.longitude R).countP
        (fun p => decide (p.2 ≤ (H, (0 : ℚ)).2))
          ≤ (db.hazards.filter (fun r => decide (gis.ST_Distance r.location
              (ST_MakePoint H.longitude H.latitude) = 0))).length :=
      nearbyRows_count_le gis db H.latitude H.longitude R hnonneg
    have htoNat : (limit.toNat : Int) = limit := Int.toNat_of_nonneg hlimit
    omega

theorem gridGIS_self (p : Geo) : gridGIS.ST_Distance p p = 0 := by
  simp [gridGIS]

theorem gridGIS_nonneg (p q : Geo) : 0 ≤ gridGIS.ST_Distance p q := by
  simp only [gridGIS]
  positivity

/-- Witness of C5 (amended): in `store2` two hazards lie within 200 km of `pothole` and only
`pothole` itself is at distance 0; the query at `pothole` with radius 200 km and limit 1
includes it. -/
theorem C5_nearby_includes_within_limit_witness :
    ∃ hs, hazards.GetNearby gridGIS store2 pothole.latitude pothole.longitude 200 1 = .ok hs ∧
      pothole.scanWithDistance 0 ∈ hs := by
  obtain ⟨hs, hok, _, hin⟩ := C5_nearby_includes_within_limit gridGIS store2 pothole 200 1
    gridGIS_self gridGIS_nonneg (by simp [store2]) (by norm_num) (by norm_num)
  refine ⟨hs, hok, hin ?_⟩
  have hcount : (store2.hazards.filter (fun r => decide (gridGIS.ST_Distance r.location
      (ST_MakePoint pothole.longitude pothole.latitude) = 0))).length = 1 := by
    simp [store2, gridGIS, HazardRow.location, ST_MakePoint, pothole, List.filter]
  rw [hcount]
  norm_num

/-! ## Nearby handler: parameters are parsed, not validated -/

/-- C6, what the code does: whenever `lat`, `lon` and `radius` are present and parse as
numbers, whatever their values, `HazardHandler.GetNearby` does not answer 400; it calls
`repo.GetNearby` once, with the parsed values and limit 100, and answers 200 or 500. -/
theorem C6_nearby_unvalidated (ParseFloat : String → Option ℚ) (gis : PostGIS) (db : DB)
    (latStr lonStr radiusStr : String) (lat lon radius : ℚ)
    (hlatStr : latStr ≠ "") (hlonStr : lonStr ≠ "") (hradiusStr : radiusStr ≠ "")
    (hlat : ParseFloat latStr = some lat) (hlon : ParseFloat lonStr = some lon)
    (hradius : ParseFloat radiusStr = some radius) :
    (handlers.GetNearby ParseFloat gis db latStr lonStr radiusStr).1.status ≠ 400 ∧
    (handlers.GetNearby ParseFloat gis db latStr lonStr radiusStr).2
      = [{ lat := lat, lon := lon, radiusKm := radius, limit := 100 }] := by
  have hrun : handlers.GetNearby ParseFloat gis db latStr lonStr radiusStr =
      (match hazards.GetNearby gis db lat lon radius 100 with
       | .error _ => (httpError "Failed to fetch hazards" 500,
           [{ lat := lat, lon := lon, radiusKm := radius, limit := 100 }])
       | .ok hs => ({ status := 200, body := .hazards hs },
           [{ lat := lat, lon := lon, radiusKm := radius, limit := 100 }])) := by
    simp only [handlers.GetNearby, hlatStr, hlonStr, hlat, hlon, hradius]
    simp [hradiusStr]
  rw [hrun, GetNearby_ok gis db lat lon radius 100 (by norm_num)]
  exact ⟨by simp, rfl⟩

/-- Witness of C6: `lat=91&lon=0&radius=-1` violates the bounds the tags of `HazardQuery`
declare, and the handler queries the store with these values and does not answer 400. -/
theorem C6_nearby_unvalidated_witness :
    HazardQuery.tagsHold { Latitude := 91, Longitude := 0, Radius := some (-1), Limit := none }
      = false ∧
    (handlers.GetNearby parseDecimal gridGIS store2 "91" "0" "-1").1.status ≠ 400 ∧
    (handlers.GetNearby parseDecimal gridGIS store2 "91" "0" "-1").2
      = [{ lat := 91, lon := 0, radiusKm := -1, limit := 100 }] :=
  ⟨by simp [HazardQuery.tagsHold]; norm_num,
   (C6_nearby_unvalidated parseDecimal gridGIS store2 "91" "0" "-1" 91 0 (-1)
      (by decide) (by decide) (by decide)
      (by simp [parseDecimal]) (by simp [parseDecimal])
      (by simp [parseDecimal])).1,
   (C6_nearby_unvalidated parseDecimal gridGIS store2 "91" "0" "-1" 91 0 (-1)
      (by decide) (by decide) (by decide)
      (by simp [parseDecimal]) (by simp [parseDecimal])
      (by simp [parseDecimal])).2⟩

/-! ## The authentication gate -/

theorem splitOn_no_sep (a : Char) (l : List Char) : ∀ part ∈ l.splitOn a, a ∉ part := by
  induction l with
  | nil =>
    intro part hpart
    simp [List.splitOn_nil] at hpart
    simp [hpart]
  | cons x xs ih =>
    intro part hpart
    simp only [List.splitOn] at hpart ih
    rw [List.splitOnP_cons] at hpart
    by_cases hx : (x == a) = true
    · rw [if_pos hx] at hpart
      rcases List.mem_cons.mp hpart with h | h
      · simp [h]
      · exact ih part h
    · rw [if_neg hx] at hpart
      cases hs : List.splitOnP (fun x => x == a) xs with
      | nil => rw [hs] at hpart; simp [List.modifyHead] at hpart
      | cons p ps =>
        rw [hs] at hpart ih
        simp only [List.modifyHead] at hpart
        rcases List.mem_cons.mp hpart with h | h
        · subst h
          intro hmem
          rcases List.mem_cons.mp hmem with h' | h'
          · exact hx (by simp [h'])
          · exact ih p (List.mem_cons_self _ _) h'
        · exact ih part (List.mem_cons_of_mem _ h)

/-- The form `Bearer <token>`: `strings.Split` yields exactly the two parts "Bearer" and
`token` if and only if the header is "Bearer", one space, and a token without space. -/
theorem Split_bearer_iff (authHeader token : String) :
    auth.Split authHeader = ["Bearer", token] ↔
      authHeader = "Bearer " ++ token ∧ ' ' ∉ token.toList := by
  constructor
  · intro h
    have hparts : authHeader.toList.splitOn ' ' = ["Bearer".toList, token.toList] := by
      have := congrArg (List.map String.toList) h
      simpa [auth.Split, List.map_map, Function.comp_def] using this
    constructor
    · have hjoin : [' '].intercalate (authHeader.toList.splitOn ' ') = authHeader.toList :=
        List.intercalate_splitOn authHeader.toList ' '
      rw [hparts] at hjoin
      apply String.ext
      show authHeader.toList = ("Bearer " ++ token).toList
      rw [← hjoin]
      simp [List.intercalate, List.intersperse, String.toList]
    · apply splitOn_no_sep ' ' authHeader.toList
      rw [hparts]
      simp
  · rintro ⟨rfl, hsp⟩
    have : ([' '].intercalate ["Bearer".toList, token.toList]).splitOn ' '
        = ["Bearer".toList, token.toList] :=
      List.splitOn_intercalate ["Bearer".toList, token.toList] ' '
      (by
        intro l hl
        simp only [List.mem_cons, List.mem_singleton, List.not_mem_nil, or_false] at hl
        rcases hl with rfl | rfl
        · decide
        · exact hsp)
      (by simp)
    simp only [auth.Split]
    have hl : ("Bearer " ++ token).toList
        = [' '].intercalate ["Bearer".toList, token.toList] := by
      simp [List.intercalate, List.intersperse, String.toList]
    rw [hl, this]
    simp [String.toList]

theorem Split_empty : auth.Split "" = [""] := by
  decide

theorem AuthMiddleware_bearer (lib : auth.JWT) (m : auth.JWTManager) (libNow now : Time)
    (authHeader token : String) (h : auth.Split authHeader = ["Bearer", token]) :
    auth.AuthMiddleware lib m libNow now authHeader =
      match auth.ValidateToken lib m libNow now token with
      | .err _ => .responded (httpError "Invalid or expired token" 401)
      | .panicked => .panicked
      | .ok claims => .next { user_id := some claims.UserID, email := some claims.Email } := by
  have hne : authHeader ≠ "" := by
    rintro rfl
    rw [Split_empty] at h
    simp at h
  simp only [auth.AuthMiddleware, if_neg hne, h]
  simp

theorem AuthMiddleware_malformed (lib : auth.JWT) (m : auth.JWTManager) (libNow now : Time)
    (authHeader : String) (h : ∀ token, auth.Split authHeader ≠ ["Bearer", token]) :
    ∃ msg, auth.AuthMiddleware lib m libNow now authHeader
      = .responded (httpError msg 401) := by
  unfold auth.AuthMiddleware
  split
  · exact ⟨_, rfl⟩
  · split
    · rename_i p0 token hsplit
      split
      · exact ⟨_, rfl⟩
      · rename_i hp0
        have hp0' : p0 = "Bearer" := by simpa using hp0
        exact absurd (hp0' ▸ hsplit) (h token)
    · exact ⟨_, rfl⟩

/-- C7, what the code does: `AuthMiddleware` calls the protected handler if and only if the
Authorization value splits at spaces into exactly the two parts "Bearer" and a token that
`ValidateToken` accepts, and the context it passes then carries the user id and the email of
the validated claims. It answers 401 if and only if the header is absent, is not of that
form, or `ValidateToken` returns an error. In the one remaining case, a header of that form
whose token makes `ValidateToken` panic, the middleware panics: it neither answers 401 nor
calls the handler. -/
theorem C7_middleware_gate (lib : auth.JWT) (m : auth.JWTManager) (libNow now : Time)
    (authHeader : String) :
    (∀ ctx, auth.AuthMiddleware lib m libNow now authHeader = .next ctx ↔
      ∃ token claims, auth.Split authHeader = ["Bearer", token] ∧
        auth.ValidateToken lib m libNow now token = .ok claims ∧
        auth.GetUserIDFromContext ctx = some claims.UserID ∧
        auth.GetEmailFromContext ctx = some claims.Email) ∧
    ((∃ msg, auth.AuthMiddleware lib m libNow now authHeader
        = .responded (httpError msg 401)) ↔
      (authHeader = "" ∨ (∀ token, auth.Split authHeader ≠ ["Bearer", token]) ∨
        (∃ token e, auth.Split authHeader = ["Bearer", token] ∧
          auth.ValidateToken lib m libNow now token = .err e))) ∧
    (auth.AuthMiddleware lib m libNow now authHeader = .panicked ↔
      ∃ token, auth.Split authHeader = ["Bearer", token] ∧
        auth.ValidateToken lib m libNow now token = .panicked) := by
  refine ⟨?_, ?_, ?_⟩
  · intro ctx
    constructor
    · intro hnext
      by_cases hform : ∃ token, auth.Split authHeader = ["Bearer", token]
      · obtain ⟨token, hsplit⟩ := hform
        rw [AuthMiddleware_bearer lib m libNow now authHeader token hsplit] at hnext
        cases hv : auth.ValidateToken lib m libNow now token with
        | err e => rw [hv] at hnext; simp at hnext
        | panicked => rw [hv] at hnext; simp at hnext
        | ok claims =>
          rw [hv] at hnext
          simp only [auth.Served.next.injEq] at hnext
          subst hnext
          exact ⟨token, claims, hsplit, hv, rfl, rfl⟩
      · obtain ⟨msg, hmsg⟩ := AuthMiddleware_malformed lib m libNow now authHeader
          (fun token hsplit => hform ⟨token, hsplit⟩)
        rw [hmsg] at hnext
        simp at hnext
    · rintro ⟨token, claims, hsplit, hv, hid, hemail⟩
      rw [AuthMiddleware_bearer lib m libNow now authHeader token hsplit, hv]
      obtain ⟨uid, em⟩ := ctx
      simp only [auth.GetUserIDFromContext, auth.GetEmailFromContext] at hid hemail
      simp [hid, hemail]
  · constructor
    · rintro ⟨msg, hmsg⟩
      by_cases hform : ∃ token, auth.Split authHeader = ["Bearer", token]
      · obtain ⟨token, hsplit⟩ := hform
        rw [AuthMiddleware_bearer lib m libNow now authHeader token hsplit] at hmsg
        cases hv : auth.ValidateToken lib m libNow now token with
        | err e => exact Or.inr (Or.inr ⟨token, e, hsplit, hv⟩)
        | panicked => rw [hv] at hmsg; simp at hmsg
        | ok claims => rw [hv] at hmsg; simp at hmsg
      · exact Or.inr (Or.inl (fun token hsplit => hform ⟨token, hsplit⟩))
    · rintro (rfl | hform | ⟨token, e, hsplit, hv⟩)
      · exact ⟨"Authorization header required", by simp [auth.AuthMiddleware]⟩
      · exact AuthMiddleware_malformed lib m libNow now authHeader hform
      · rw [AuthMiddleware_bearer lib m libNow now authHeader token hsplit, hv]
        exact ⟨_, rfl⟩
  · constructor
    · intro hpanic
      by_cases hform : ∃ token, auth.Split authHeader = ["Bearer", token]
      · obtain ⟨token, hsplit⟩ := hform
        rw [AuthMiddleware_bearer lib m libNow now authHeader token hsplit] at hpanic
        cases hv : auth.ValidateToken lib m libNow now token with
        | err e => rw [hv] at hpanic; simp at hpanic
        | panicked => exact ⟨token, hsplit, hv⟩
        | ok claims => rw [hv] at hpanic; simp at hpanic
      · obtain ⟨msg, hmsg⟩ := AuthMiddleware_malformed lib m libNow now authHeader
          (fun token hsplit => hform ⟨token, hsplit⟩)
        rw [hmsg] at hpanic
        simp at hpanic
    · rintro ⟨token, hsplit, hv⟩
      rw [AuthMiddleware_bearer lib m libNow now authHeader token hsplit, hv]

theorem takeWhile_run (n : Nat) (rest : List Char) :
    (List.replicate n 'a' ++ '|' :: rest).takeWhile (fun ch => ch == 'a')
      = List.replicate n 'a' := by
  induction n with
  | zero => simp [List.takeWhile]
  | succ k ih => simp [List.replicate_succ, List.takeWhile_cons, ih]

theorem dropWhile_run (n : Nat) (rest : List Char) :
    (List.replicate n 'a' ++ '|' :: rest).dropWhile (fun ch => ch == 'a') = '|' :: rest := by
  induction n with
  | zero => simp [List.dropWhile]
  | succ k ih => simp [List.replicate_succ, List.dropWhile_cons, ih]

theorem plainDecode_sign (c : auth.Claims) (key : String) :
    plainDecode (plainSign c key) = some (.HMAC, c) := by
  simp only [plainDecode, plainSign, String.toList, dropWhile_run, takeWhile_run,
    List.length_replicate, Encodable.encodek, plainPayload]
  simp [List.map_map, Function.comp_def]

theorem plainVerify_sign (method : auth.SigningMethod) (c : auth.Claims) (key : String) :
    plainVerify method (plainSign c key) key = true := by
  simp [plainVerify, plainSign, String.toList, dropWhile_run]

theorem plainJWT_decode_sign (c : auth.Claims) (key : String) :
    plainJWT.decode (plainSign c key) = some (.HMAC, c) :=
  plainDecode_sign c key

theorem plainJWT_verify_sign (method : auth.SigningMethod) (c : auth.Claims) (key : String) :
    plainJWT.verify method (plainSign c key) key = true :=
  plainVerify_sign method c key

/-! ## Token validation -/

theorem ValidateToken_malformed (lib : auth.JWT) (m : auth.JWTManager) (libNow now : Time)
    (t : String) (hdec : lib.decode t = none) :
    auth.ValidateToken lib m libNow now t = .err .ErrTokenMalformed := by
  simp [auth.ValidateToken, auth.JWT.ParseWithClaims, hdec]

theorem ValidateToken_unavailable (lib : auth.JWT) (m : auth.JWTManager) (libNow now : Time)
    (t : String) (c : auth.Claims) (hdec : lib.decode t = some (.unavailable, c)) :
    auth.ValidateToken lib m libNow now t = .err .ErrTokenUnverifiableMethod := by
  simp [auth.ValidateToken, auth.JWT.ParseWithClaims, hdec]

theorem ValidateToken_other (lib : auth.JWT) (m : auth.JWTManager) (libNow now : Time)
    (t : String) (c : auth.Claims) (hdec : lib.decode t = some (.other, c)) :
    auth.ValidateToken lib m libNow now t = .err (.ErrTokenUnverifiable .ErrInvalidToken) := by
  simp [auth.ValidateToken, auth.JWT.ParseWithClaims, hdec, auth.keyFunc]

theorem ValidateToken_bad_signature (lib : auth.JWT) (m : auth.JWTManager)
    (libNow now : Time) (t : String) (c : auth.Claims)
    (hdec : lib.decode t = some (.HMAC, c))
    (hver : lib.verify .HMAC t m.secretKey = false) :
    auth.ValidateToken lib m libNow now t = .err .ErrTokenSignatureInvalid := by
  simp [auth.ValidateToken, auth.JWT.ParseWithClaims, hdec, auth.keyFunc, hver]

theorem ValidateToken_signed (lib : auth.JWT) (m : auth.JWTManager) (libNow now : Time)
    (t : String) (c : auth.Claims) (hdec : lib.decode t = some (.HMAC, c))
    (hver : lib.verify .HMAC t m.secretKey = true) :
    auth.ValidateToken lib m libNow now t =
      if auth.JWT.validateClaims libNow c = [] then
        match c.ExpiresAt with
        | none => .panicked
        | some exp => if now > exp then .err .ErrExpiredToken else .ok c
      else .err (.ErrTokenInvalidClaims (auth.JWT.validateClaims libNow c)) := by
  simp only [auth.ValidateToken, auth.JWT.ParseWithClaims, hdec, auth.keyFunc, if_true, hver]
  by_cases hval : auth.JWT.validateClaims libNow c = [] <;> simp [hval]

theorem validateClaims_expired (libNow : Time) (c : auth.Claims) (exp : Time)
    (hexp : c.ExpiresAt = some exp) (hpast : exp ≤ libNow) :
    ClaimsError.ErrTokenExpired ∈ auth.JWT.validateClaims libNow c := by
  simp only [auth.JWT.validateClaims, hexp]
  rw [if_neg (not_lt.mpr hpast)]
  simp

theorem validateClaims_none_iff (libNow : Time) (c : auth.Claims) :
    auth.JWT.validateClaims libNow c = [] ↔
      (∀ exp, c.ExpiresAt = some exp → libNow < exp) ∧
      (∀ nbf, c.NotBefore = some nbf → nbf ≤ libNow) := by
  unfold auth.JWT.validateClaims
  cases hexp : c.ExpiresAt with
  | none =>
    cases hnbf : c.NotBefore with
    | none => simp
    | some nbf =>
      by_cases h : libNow < nbf
      · simp [h]
      · simp [h]; exact not_lt.mp h
  | some exp =>
    by_cases h1 : libNow < exp
    · cases hnbf : c.NotBefore with
      | none => simp [h1]
      | some nbf =>
        by_cases h : libNow < nbf
        · simp [h1, h]
        · simp [h1, h]; exact not_lt.mp h
    · simp [h1]

/-- C8, as stated, fails: for the malformed token "garbage" `ValidateToken` returns the
library's `ErrTokenMalformed`, not `ErrInvalidToken`; and for a token correctly signed with
the manager's secret whose expires-at (10 s) is before the current time (20 s) it returns the
library's `ErrTokenInvalidClaims` with `ErrTokenExpired`, not `ErrExpiredToken`. -/
theorem C8_library_error_passed_through :
    plainJWT.decode "garbage" = none ∧
    auth.ValidateToken plainJWT manager 0 0 "garbage" = .err .ErrTokenMalformed ∧
    auth.ValidateToken plainJWT manager 0 0 "garbage" ≠ .err .ErrInvalidToken ∧
    plainJWT.decode (plainSign oldClaims manager.secretKey) = some (.HMAC, oldClaims) ∧
    plainJWT.verify .HMAC (plainSign oldClaims manager.secretKey) manager.secretKey = true ∧
    oldClaims.ExpiresAt = some 10000000000 ∧
    auth.ValidateToken plainJWT manager 20000000000 20000000000
      (plainSign oldClaims manager.secretKey)
        = .err (.ErrTokenInvalidClaims [.ErrTokenExpired]) ∧
    auth.ValidateToken plainJWT manager 20000000000 20000000000
      (plainSign oldClaims manager.secretKey) ≠ .err .ErrExpiredToken := by
  have hgarbage : plainJWT.decode "garbage" = none := by
    simp [plainJWT, plainDecode, String.toList, List.dropWhile]
  have hmal := ValidateToken_malformed plainJWT manager 0 0 "garbage" hgarbage
  have hdec : plainJWT.decode (plainSign oldClaims manager.secretKey)
      = some (.HMAC, oldClaims) := plainJWT_decode_sign oldClaims manager.secretKey
  have hver : plainJWT.verify .HMAC (plainSign oldClaims manager.secretKey) manager.secretKey
      = true := plainJWT_verify_sign .HMAC oldClaims manager.secretKey
  have hval : auth.JWT.validateClaims 20000000000 oldClaims = [.ErrTokenExpired] := by
    simp [auth.JWT.validateClaims, oldClaims]
  have hexp : auth.ValidateToken plainJWT manager 20000000000 20000000000
      (plainSign oldClaims manager.secretKey)
        = .err (.ErrTokenInvalidClaims [.ErrTokenExpired]) := by
    rw [ValidateToken_signed plainJWT manager 20000000000 20000000000
      (plainSign oldClaims manager.secretKey) oldClaims hdec hver, hval]
    simp
  refine ⟨hgarbage, hmal, ?_, hdec, hver, rfl, hexp, ?_⟩
  · rw [hmal]; simp
  · rw [hexp]; simp

/-- C8, amended: `ValidateToken` fails with the error of the JWT library, passed through
unchanged, for every token that is malformed (`ErrTokenMalformed`), that names no available
signing method (`ErrTokenUnverifiable`) or a method other than HMAC (`ErrTokenUnverifiable`
joined with `ErrInvalidToken`), whose signature does not verify under the manager's secret
(`ErrTokenSignatureInvalid`), or that is correctly signed and whose expires-at is not after
the library's clock reading (`ErrTokenInvalidClaims` with `ErrTokenExpired`). It never fails
with `ErrInvalidToken` itself. It fails with `ErrExpiredToken` exactly for a correctly signed
token that passes the library's validation and whose expires-at is before the time of the
explicit re-check. It returns claims exactly for a correctly signed token whose not-before
is not after the library's clock reading, and whose expires-at is present, after the
library's clock reading and not before the time of the re-check; the claims are those of the
token. -/
theorem C8_validate_errors (lib : auth.JWT) (m : auth.JWTManager) (libNow now : Time)
    (t : String) :
    (lib.decode t = none → auth.ValidateToken lib m libNow now t = .err .ErrTokenMalformed) ∧
    (∀ c, lib.decode t = some (.unavailable, c) →
      auth.ValidateToken lib m libNow now t = .err .ErrTokenUnverifiableMethod) ∧
    (∀ c, lib.decode t = some (.other, c) →
      auth.ValidateToken lib m libNow now t = .err (.ErrTokenUnverifiable .ErrInvalidToken)) ∧
    (∀ c, lib.decode t = some (.HMAC, c) → lib.verify .HMAC t m.secretKey = false →
      auth.ValidateToken lib m libNow now t = .err .ErrTokenSignatureInvalid) ∧
    (∀ c exp, lib.decode t = some (.HMAC, c) → lib.verify .HMAC t m.secretKey = true →
      c.ExpiresAt = some exp → exp ≤ libNow →
      ∃ errs, auth.ValidateToken lib m libNow now t = .err (.ErrTokenInvalidClaims errs) ∧
        ClaimsError.ErrTokenExpired ∈ errs) ∧
    auth.ValidateToken lib m libNow now t ≠ .err .ErrInvalidToken ∧
    (auth.ValidateToken lib m libNow now t = .err .ErrExpiredToken ↔
      ∃ c exp, lib.decode t = some (.HMAC, c) ∧ lib.verify .HMAC t m.secretKey = true ∧
        (∀ nbf, c.NotBefore = some nbf → nbf ≤ libNow) ∧
        c.ExpiresAt = some exp ∧ libNow < exp ∧ exp < now) ∧
    (∀ c, auth.ValidateToken lib m libNow now t = .ok c ↔
      lib.decode t = some (.HMAC, c) ∧ lib.verify .HMAC t m.secretKey = true ∧
        (∀ nbf, c.NotBefore = some nbf → nbf ≤ libNow) ∧
        ∃ exp, c.ExpiresAt = some exp ∧ libNow < exp ∧ now ≤ exp) := by
  refine ⟨ValidateToken_malformed lib m libNow now t,
    ValidateToken_unavailable lib m libNow now t,
    ValidateToken_other lib m libNow now t,
    ValidateToken_bad_signature lib m libNow now t, ?_, ?_, ?_, ?_⟩
  · intro c exp hdec hver hexp hpast
    have hmem := validateClaims_expired libNow c exp hexp hpast
    rw [ValidateToken_signed lib m libNow now t c hdec hver,
      if_neg (List.ne_nil_of_mem hmem)]
    exact ⟨_, rfl, hmem⟩
  · cases hdec : lib.decode t with
    | none => rw [ValidateToken_malformed lib m libNow now t hdec]; simp
    | some mc =>
      obtain ⟨method, c⟩ := mc
      cases method with
      | unavailable => rw [ValidateToken_unavailable lib m libNow now t c hdec]; simp
      | other => rw [ValidateToken_other lib m libNow now t c hdec]; simp
      | HMAC =>
        cases hver : lib.verify .HMAC t m.secretKey with
        | false => rw [ValidateToken_bad_signature lib m libNow now t c hdec hver]; simp
        | true =>
          rw [ValidateToken_signed lib m libNow now t c hdec hver]
          by_cases hval : auth.JWT.validateClaims libNow c = []
          · rw [if_pos hval]
            cases hexp : c.ExpiresAt with
            | none => simp
            | some exp => by_cases hgt : now > exp <;> simp [hgt]
          · rw [if_neg hval]; simp
  · constructor
    · intro hres
      cases hdec : lib.decode t with
      | none => rw [ValidateToken_malformed lib m libNow now t hdec] at hres; simp at hres
      | some mc =>
        obtain ⟨method, c⟩ := mc
        cases method with
        | unavailable =>
          rw [ValidateToken_unavailable lib m libNow now t c hdec] at hres; simp at hres
        | other => rw [ValidateToken_other lib m libNow now t c hdec] at hres; simp at hres
        | HMAC =>
          cases hver : lib.verify .HMAC t m.secretKey with
          | false =>
            rw [ValidateToken_bad_signature lib m libNow now t c hdec hver] at hres
            simp at hres
          | true =>
            rw [ValidateToken_signed lib m libNow now t c hdec hver] at hres
            by_cases hval : auth.JWT.validateClaims libNow c = []
            · rw [if_pos hval] at hres
              obtain ⟨hexpOk, hnbfOk⟩ := (validateClaims_none_iff libNow c).mp hval
              cases hexp : c.ExpiresAt with
              | none => rw [hexp] at hres; simp at hres
              | some exp =>
                rw [hexp] at hres
                by_cases hgt : now > exp
                · exact ⟨c, exp, rfl, rfl, hnbfOk, hexp, hexpOk exp hexp, hgt⟩
                · simp [hgt] at hres
            · rw [if_neg hval] at hres; simp at hres
    · rintro ⟨c, exp, hdec, hver, hnbfOk, hexp, hlib, hpast⟩
      have hval : auth.JWT.validateClaims libNow c = [] := by
        rw [validateClaims_none_iff]
        refine ⟨fun e he => ?_, hnbfOk⟩
        rw [hexp] at he
        simp only [Option.some.injEq] at he
        exact he ▸ hlib
      rw [ValidateToken_signed lib m libNow now t c hdec hver, if_pos hval]
      simp only [hexp]
      rw [if_pos hpast]
  · intro c
    constructor
    · intro hok
      cases hdec : lib.decode t with
      | none => rw [ValidateToken_malformed lib m libNow now t hdec] at hok; simp at hok
      | some mc =>
        obtain ⟨method, c'⟩ := mc
        cases method with
        | unavailable =>
          rw [ValidateToken_unavailable lib m libNow now t c' hdec] at hok; simp at hok
        | other => rw [ValidateToken_other lib m libNow now t c' hdec] at hok; simp at hok
        | HMAC =>
          cases hver : lib.verify .HMAC t m.secretKey with
          | false =>
            rw [ValidateToken_bad_signature lib m libNow now t c' hdec hver] at hok
            simp at hok
          | true =>
            rw [ValidateToken_signed lib m libNow now t c' hdec hver] at hok
            by_cases hval : auth.JWT.validateClaims libNow c' = []
            · rw [if_pos hval] at hok
              obtain ⟨hexpOk, hnbfOk⟩ := (validateClaims_none_iff libNow c').mp hval
              cases hexp : c'.ExpiresAt with
              | none => rw [hexp] at hok; simp at hok
              | some exp =>
                rw [hexp] at hok
                by_cases hgt : now > exp
                · simp [hgt] at hok
                · simp only [if_neg hgt, auth.Outcome.ok.injEq] at hok
                  subst hok
                  exact ⟨rfl, rfl, hnbfOk, exp, hexp, hexpOk exp hexp, not_lt.mp hgt⟩
            · rw [if_neg hval] at hok; simp at hok
    · rintro ⟨hdec, hver, hnbfOk, exp, hexp, hlib, hnow⟩
      have hval : auth.JWT.validateClaims libNow c = [] := by
        rw [validateClaims_none_iff]
        refine ⟨fun e he => ?_, hnbfOk⟩
        rw [hexp] at he
        simp only [Option.some.injEq] at he
        exact he ▸ hlib
      rw [ValidateToken_signed lib m libNow now t c hdec hver, if_pos hval]
      simp only [hexp]
      rw [if_neg (not_lt.mpr hnow)]

/-- Witness of C8 (amended): a token of user 5 signed with the manager's secret, valid until
10 s, is accepted at 5 s, and the claims returned are the signed ones. -/
theorem C8_validate_errors_witness :
    auth.ValidateToken plainJWT manager 5000000000 5000000000
        (plainSign oldClaims manager.secretKey) = .ok oldClaims :=
  ((C8_validate_errors plainJWT manager 5000000000 5000000000
    (plainSign oldClaims manager.secretKey)).2.2.2.2.2.2.2 oldClaims).mpr
    ⟨plainJWT_decode_sign oldClaims manager.secretKey,
      plainJWT_verify_sign .HMAC oldClaims manager.secretKey,
      fun nbf hnbf => by
        simp only [oldClaims, Option.some.injEq] at hnbf
        subst hnbf
        decide,
      10000000000, rfl, by decide, by decide⟩

/-! ## Register, login, validate -/

theorem insertUser_find (db db' : DB) (user stored : User) (now : Time)
    (h : handlers.insertUser db user now = .ok (stored, db')) :
    stored.ID = user.ID ∧ stored.Email = user.Email ∧
    stored.PasswordHash = user.PasswordHash ∧
    db'.users.find? (fun u => u.Email == user.Email) = some stored := by
  unfold handlers.insertUser at h
  split at h
  · simp at h
  · rename_i hany
    simp only [Except.ok.injEq, Prod.mk.injEq] at h
    obtain ⟨hstored, hdb⟩ := h
    subst hdb
    subst hstored
    refine ⟨rfl, rfl, rfl, ?_⟩
    have hnone : db.users.find? (fun u => u.Email == user.Email) = none := by
      rw [List.find?_eq_none]
      intro u hu hEq
      apply hany
      rw [List.any_eq_true]
      exact ⟨u, hu, by simp [beq_iff_eq.mp hEq]⟩
    simp [List.find?_append, hnone]

theorem Register_ok (pw : auth.Passwords) (lib : auth.JWT) (m : auth.JWTManager) (db : DB)
    (req : UserCreate) (newID : UUID) (salt : Nat) (now : Time) (ar : AuthResponse)
    (hreg : (handlers.Register pw lib m db (some req) newID salt now).1
      = { status := 200, body := .auth ar }) :
    ar.User.ID = newID ∧ ar.User.Email = req.Email ∧
    pw.HashPassword req.Password salt = .ok ar.User.PasswordHash ∧
    (handlers.Register pw lib m db (some req) newID salt now).2.users.find?
      (fun u => u.Email == req.Email) = some ar.User := by
  simp only [handlers.Register] at hreg ⊢
  cases hhash : pw.HashPassword req.Password salt with
  | error e => rw [hhash] at hreg; simp [httpError] at hreg
  | ok passwordHash =>
    rw [hhash] at hreg
    simp only at hreg ⊢
    cases hins : handlers.insertUser db
        { ID := newID, Username := req.Username, Email := req.Email,
          PasswordHash := passwordHash, Points := 0, Avatar := none,
          CreatedAt := 0, UpdatedAt := 0 } now with
    | error e => rw [hins] at hreg; simp [httpError] at hreg
    | ok res =>
      obtain ⟨stored, db'⟩ := res
      rw [hins] at hreg
      simp only at hreg ⊢
      obtain ⟨hid, hemail, hpass, hfind⟩ := insertUser_find db db' _ stored now hins
      cases htok : auth.GenerateToken lib m now stored.ID stored.Email with
      | error e => rw [htok] at hreg; simp [httpError] at hreg
      | ok token =>
        rw [htok] at hreg
        simp only [Response.mk.injEq, Body.auth.injEq, true_and] at hreg
        subst hreg
        exact ⟨hid, hemail, by rw [hpass], hfind⟩

/-- C9, amended: if `register(u, e, p)` succeeds, a following `login(e, p)` succeeds, and
`ValidateToken` of the access token it returns, under the same secret and at a time not
before the token's not-before and before its expires-at, yields claims with the id of the
user that register returned and the email e. The expires-at is the login time plus the
configured expiry as `NewNumericDate` rounds it (the library truncates to whole seconds), so
it can lie up to a second before the configured expiry has elapsed. The hypotheses on the
parameters are the laws of the external parts: a password matches its own hash, signing with
the secret succeeds, and a token signed with the secret decodes to its claims and
verifies. -/
theorem C9_register_login_validate (pw : auth.Passwords) (lib : auth.JWT)
    (m : auth.JWTManager) (db : DB) (u e p : String) (newID : UUID) (salt : Nat)
    (t0 t1 tv tv' : Time) (ar : AuthResponse)
    (hpw : ∀ h, pw.HashPassword p salt = .ok h → pw.CheckPassword p h = true)
    (hsign : ∀ c, ∃ s, lib.SignedString c m.secretKey = .ok s)
    (hparse : ∀ c s, lib.SignedString c m.secretKey = .ok s →
      lib.decode s = some (.HMAC, c) ∧ lib.verify .HMAC s m.secretKey = true)
    (hreg : (handlers.Register pw lib m db
        (some { Username := u, Email := e, Password := p }) newID salt t0).1
      = { status := 200, body := .auth ar })
    (hnbf : lib.NewNumericDate t1 ≤ tv)
    (hexp : tv < lib.NewNumericDate (t1 + m.tokenExpiry))
    (hexp' : tv' ≤ lib.NewNumericDate (t1 + m.tokenExpiry)) :
    ∃ ar', handlers.Login pw lib m
        (handlers.Register pw lib m db
          (some { Username := u, Email := e, Password := p }) newID salt t0).2
        (some { Email := e, Password := p }) t1 = { status := 200, body := .auth ar' } ∧
      ar'.User = ar.User ∧
      ∃ claims, auth.ValidateToken lib m tv tv' ar'.Token = .ok claims ∧
        claims.UserID = ar.User.ID ∧ claims.Email = e := by
  obtain ⟨_, hemail, hhash, hfind⟩ := Register_ok pw lib m db _ newID salt t0 ar hreg
  simp only at hemail hhash hfind
  have hcheck : pw.CheckPassword p ar.User.PasswordHash = true := hpw _ hhash
  obtain ⟨tok, htok⟩ := hsign
    { UserID := ar.User.ID, Email := ar.User.Email,
      ExpiresAt := some (lib.NewNumericDate (t1 + m.tokenExpiry)),
      IssuedAt := some (lib.NewNumericDate t1),
      NotBefore := some (lib.NewNumericDate t1) }
  obtain ⟨hdec, hver⟩ := hparse _ tok htok
  have hgen : auth.GenerateToken lib m t1 ar.User.ID ar.User.Email = .ok tok := htok
  refine ⟨{ User := ar.User, Token := tok,
            RefreshToken :=
              match auth.GenerateRefreshToken lib m t1 ar.User.ID ar.User.Email with
              | .ok t => t
              | .error _ => "" }, ?_, rfl, ?_⟩
  · simp only [handlers.Login, hfind, hcheck, hgen]
    simp
  · refine ⟨{ UserID := ar.User.ID, Email := ar.User.Email,
              ExpiresAt := some (lib.NewNumericDate (t1 + m.tokenExpiry)),
              IssuedAt := some (lib.NewNumericDate t1),
              NotBefore := some (lib.NewNumericDate t1) }, ?_, rfl, hemail⟩
    rw [ValidateToken_signed lib m tv tv' tok _ hdec hver]
    have hval : auth.JWT.validateClaims tv
        { UserID := ar.User.ID, Email := ar.User.Email,
          ExpiresAt := some (lib.NewNumericDate (t1 + m.tokenExpiry)),
          IssuedAt := some (lib.NewNumericDate t1),
          NotBefore := some (lib.NewNumericDate t1) } = [] := by
      rw [validateClaims_none_iff]
      constructor
      · intro exp hx
        simp only [Option.some.injEq] at hx
        subst hx
        exact hexp
      · intro nbf hx
        simp only [Option.some.injEq] at hx
        subst hx
        exact hnbf
    rw [if_pos hval]
    simp only
    rw [if_neg (not_lt.mpr hexp')]

theorem reversePasswords_match (p : String) (salt : Nat) (h : String)
    (hh : reversePasswords.HashPassword p salt = .ok h) :
    reversePasswords.CheckPassword p h = true := by
  simp only [reversePasswords, Except.ok.injEq] at hh
  subst hh
  simp [reversePasswords]

theorem plainJWT_parses_own (key : String) (c : auth.Claims) (s : String)
    (hs : plainJWT.SignedString c key = .ok s) :
    plainJWT.decode s = some (.HMAC, c) ∧ plainJWT.verify .HMAC s key = true := by
  simp only [plainJWT, Except.ok.injEq] at hs
  subst hs
  exact ⟨plainDecode_sign c key, plainVerify_sign .HMAC c key⟩

theorem register_alice :
    (handlers.Register reversePasswords plainJWT manager store1
        (some { Username := "alice", Email := "alice@x.com", Password := "password123" })
        5 0 0).1
      = { status := 200, body := .auth aliceRegistered } := by
  rfl

/-- Witness of C9: alice registers at time 0 in an empty user table, logs in at 1 s, and her
access token validated at 2 s yields her id 5 and her email. -/
theorem C9_register_login_validate_witness :
    ∃ ar', handlers.Login reversePasswords plainJWT manager
        (handlers.Register reversePasswords plainJWT manager store1
          (some { Username := "alice", Email := "alice@x.com", Password := "password123" })
          5 0 0).2
        (some { Email := "alice@x.com", Password := "password123" }) 1000000000
          = { status := 200, body := .auth ar' } ∧
      ar'.User = aliceRegistered.User ∧
      ∃ claims, auth.ValidateToken plainJWT manager 2000000000 2000000000 ar'.Token
          = .ok claims ∧
        claims.UserID = aliceRegistered.User.ID ∧ claims.Email = "alice@x.com" :=
  C9_register_login_validate reversePasswords plainJWT manager store1
    "alice" "alice@x.com" "password123" 5 0 0 1000000000 2000000000 2000000000
    aliceRegistered
    (reversePasswords_match "password123" 0)
    (fun c => ⟨plainSign c manager.secretKey, rfl⟩)
    (plainJWT_parses_own manager.secretKey)
    register_alice
    (by decide) (by decide) (by decide)

theorem login_alice :
    handlers.Login reversePasswords plainJWT manager
        (handlers.Register reversePasswords plainJWT manager store1
          (some { Username := "alice", Email := "alice@x.com", Password := "password123" })
          5 0 0).2
        (some { Email := "alice@x.com", Password := "password123" }) 900000000
      = { status := 200, body := .auth aliceLoggedIn } := by
  rfl

/-- C9, as stated, fails: alice registers at time 0 and logs in at 0.9 s with a configured
expiry of one hour; the expires-at of her access token is truncated to 3600 s, and
`ValidateToken` at 3600.5 s, before the configured expiry has elapsed since the login
(3600.9 s), rejects the token as expired. -/
theorem C9_expiry_truncated :
    (handlers.Register reversePasswords plainJWT manager store1
        (some { Username := "alice", Email := "alice@x.com", Password := "password123" })
        5 0 0).1 = { status := 200, body := .auth aliceRegistered } ∧
    handlers.Login reversePasswords plainJWT manager
        (handlers.Register reversePasswords plainJWT manager store1
          (some { Username := "alice", Email := "alice@x.com", Password := "password123" })
          5 0 0).2
        (some { Email := "alice@x.com", Password := "password123" }) 900000000
      = { status := 200, body := .auth aliceLoggedIn } ∧
    (900000000 : Int) ≤ 3600500000000 ∧
    (3600500000000 : Int) < 900000000 + manager.tokenExpiry ∧
    auth.ValidateToken plainJWT manager 3600500000000 3600500000000 aliceLoggedIn.Token
      = .err (.ErrTokenInvalidClaims [.ErrTokenExpired]) := by
  refine ⟨register_alice, login_alice, by decide, by decide, ?_⟩
  have hval : auth.JWT.validateClaims 3600500000000 aliceLoginClaims
      = [.ErrTokenExpired] := by
    decide
  show auth.ValidateToken plainJWT manager 3600500000000 3600500000000
    (plainSign aliceLoginClaims manager.secretKey) = _
  rw [ValidateToken_signed plainJWT manager 3600500000000 3600500000000
    (plainSign aliceLoginClaims manager.secretKey) aliceLoginClaims
    (plainJWT_decode_sign aliceLoginClaims manager.secretKey)
    (plainJWT_verify_sign .HMAC aliceLoginClaims manager.secretKey), hval]
  simp

/-! ## Login failures -/

/-- C10: a login whose email is not in the user table and a login whose email is in the table
but whose password does not match the stored hash get the same response, status 401 with the
message "Invalid credentials", and neither response carries a token. -/
theorem C10_login_failures_identical (pw : auth.Passwords) (lib : auth.JWT)
    (m : auth.JWTManager) (db : DB) (unknown known : UserLogin) (user : User)
    (now now' : Time)
    (hunknown : ∀ u ∈ db.users, u.Email ≠ unknown.Email)
    (hknown : db.users.find? (fun u => u.Email == known.Email) = some user)
    (hwrong : pw.CheckPassword known.Password user.PasswordHash = false) :
    handlers.Login pw lib m db (some unknown) now
      = handlers.Login pw lib m db (some known) now' ∧
    handlers.Login pw lib m db (some unknown) now = httpError "Invalid credentials" 401 ∧
    (handlers.Login pw lib m db (some known) now').status = 401 ∧
    (∀ ar, (handlers.Login pw lib m db (some unknown) now).body ≠ .auth ar) ∧
    (∀ ar, (handlers.Login pw lib m db (some known) now').body ≠ .auth ar) := by
  have h1 : handlers.Login pw lib m db (some unknown) now
      = httpError "Invalid credentials" 401 := by
    have hnone : db.users.find? (fun u => u.Email == unknown.Email) = none := by
      rw [List.find?_eq_none]
      intro u hu hEq
      exact hunknown u hu (beq_iff_eq.mp hEq)
    simp only [handlers.Login, hnone]
  have h2 : handlers.Login pw lib m db (some known) now'
      = httpError "Invalid credentials" 401 := by
    simp only [handlers.Login, hknown, hwrong]
    simp
  rw [h1, h2]
  exact ⟨rfl, rfl, rfl, fun ar => by simp [httpError], fun ar => by simp [httpError]⟩

/-- Witness of C10: against a table holding alice, a login for bob and a login for alice with
a wrong password get the same 401 response. -/
theorem C10_login_failures_identical_witness :
    handlers.Login reversePasswords plainJWT manager store3
        (some { Email := "bob@x.com", Password := "password123" }) 0
      = handlers.Login reversePasswords plainJWT manager store3
        (some { Email := "alice@x.com", Password := "wrong" }) 0 :=
  (C10_login_failures_identical reversePasswords plainJWT manager store3
    { Email := "bob@x.com", Password := "password123" }
    { Email := "alice@x.com", Password := "wrong" } alice 0 0
    (by simp [store3, alice]) (by simp [store3, alice]) (by decide)).1

theorem plainSign_no_space (c : auth.Claims) : ' ' ∉ (plainSign c "secret").toList := by
  simp only [plainSign, String.toList, List.mem_append, List.mem_replicate, List.mem_cons,
    not_or]
  refine ⟨fun h => absurd h.2 (by decide), by decide, by decide⟩

/-- Witness of C7: the header "Bearer " followed by a token of user 5 that is signed with the
manager's secret and carries no expires-at makes the middleware panic; it answers no 401 and
does not call the handler. -/
theorem C7_middleware_gate_witness :
    auth.AuthMiddleware plainJWT manager 5000000000 5000000000
        ("Bearer " ++ plainSign openClaims "secret") = .panicked ∧
    (∀ msg, auth.AuthMiddleware plainJWT manager 5000000000 5000000000
        ("Bearer " ++ plainSign openClaims "secret") ≠ .responded (httpError msg 401)) ∧
    (∀ ctx, auth.AuthMiddleware plainJWT manager 5000000000 5000000000
        ("Bearer " ++ plainSign openClaims "secret") ≠ .next ctx) := by
  have hpanic : auth.AuthMiddleware plainJWT manager 5000000000 5000000000
      ("Bearer " ++ plainSign openClaims "secret") = .panicked :=
    (C7_middleware_gate plainJWT manager 5000000000 5000000000
        ("Bearer " ++ plainSign openClaims "secret")).2.2.mpr
      ⟨plainSign openClaims "secret",
        (Split_bearer_iff _ _).mpr ⟨rfl, plainSign_no_space openClaims⟩,
        by
          rw [ValidateToken_signed plainJWT manager 5000000000 5000000000
            (plainSign openClaims "secret") openClaims
            (plainJWT_decode_sign openClaims "secret")
            (plainJWT_verify_sign .HMAC openClaims "secret")]
          simp [auth.JWT.validateClaims, openClaims]⟩
  refine ⟨hpanic, fun msg => ?_, fun ctx => ?_⟩
  · rw [hpanic]; simp
  · rw [hpanic]; simp

/-! ## Hazard creation -/

theorem Create_fresh (db : DB) (hazard : Hazard) (now : Time)
    (hfresh : ∀ r ∈ db.hazards, r.id ≠ hazard.ID) :
    hazards.Create db hazard now =
      .ok ({ hazard with CreatedAt := now, UpdatedAt := now },
           { db with hazards := db.hazards ++ [hazards.insertedRow hazard now] }) := by
  have hany : db.hazards.any (fun r => r.id == hazard.ID) = false := by
    rw [List.any_eq_false]
    intro r hr
    simpa using hfresh r hr
  simp only [hazards.Create, hany]
  rfl

theorem handlers_Create_fresh (db : DB) (ctx : Context) (req : HazardCreate)
    (newID userID : UUID) (now : Time) (hctx : ctx.user_id = some userID)
    (hfresh : ∀ r ∈ db.hazards, r.id ≠ newID) :
    handlers.Create db ctx (some req) newID now =
      ({ status := 201,
         body := .hazard
           { ID := newID, UserID := userID, Type_ := req.Type_, Latitude := req.Latitude,
             Longitude := req.Longitude, ImageURL := none, Severity := req.Severity,
             Description := req.Description, IsVerified := false, VerifyCount := 0,
             ReportedBy := none, CreatedAt := now, UpdatedAt := now, Distance := none } },
       { db with hazards := db.hazards ++
           [{ id := newID, user_id := userID, type := req.Type_, latitude := req.Latitude,
              longitude := req.Longitude, image_url := none, severity := req.Severity,
              description := req.Description, is_verified := false, verify_count := 0,
              reported_by := none, created_at := now, updated_at := now }] }) := by
  simp only [handlers.Create, auth.GetUserIDFromContext, hctx]
  rw [Create_fresh db _ now hfresh]
  rfl

/-- C11, what the code does: for every decoded create request of an authenticated user,
whatever its latitude, longitude, type and severity, `HazardHandler.Create` (with a fresh id
from `uuid.New()`) does not answer 400; it answers 201 and the store holds a new row with the
values of the request. -/
theorem C11_create_unvalidated (db : DB) (ctx : Context) (req : HazardCreate)
    (newID userID : UUID) (now : Time) (hctx : ctx.user_id = some userID)
    (hfresh : ∀ r ∈ db.hazards, r.id ≠ newID) :
    (handlers.Create db ctx (some req) newID now).1.status ≠ 400 ∧
    (handlers.Create db ctx (some req) newID now).1.status = 201 ∧
    (handlers.Create db ctx (some req) newID now).2 ≠ db ∧
    (∃ r ∈ (handlers.Create db ctx (some req) newID now).2.hazards,
      r.id = newID ∧ r.latitude = req.Latitude ∧ r.longitude = req.Longitude ∧
      r.type = req.Type_ ∧ r.severity = req.Severity) := by
  rw [handlers_Create_fresh db ctx req newID userID now hctx hfresh]
  refine ⟨by simp, rfl, ?_, ?_⟩
  · intro h
    have hlen := congrArg (fun d => d.hazards.length) h
    simp at hlen
  · refine ⟨{ id := newID, user_id := userID, type := req.Type_, latitude := req.Latitude,
              longitude := req.Longitude, image_url := none, severity := req.Severity,
              description := req.Description, is_verified := false, verify_count := 0,
              reported_by := none, created_at := now, updated_at := now }, ?_,
      rfl, rfl, rfl, rfl, rfl⟩
    simp

/-- Witness of C11: the request `badCreate` (latitude 91, longitude 181, type "volcano",
severity "extreme") violates the tags of `HazardCreate`, is not answered with 400, and
changes the store. -/
theorem C11_create_unvalidated_witness :
    HazardCreate.tagsHold badCreate = false ∧
    (handlers.Create store1 { user_id := some 2, email := none } (some badCreate) 9 0).1.status
      ≠ 400 ∧
    (handlers.Create store1 { user_id := some 2, email := none } (some badCreate) 9 0).2
      ≠ store1 :=
  ⟨by simp [HazardCreate.tagsHold, badCreate, HazardTypePothole, HazardTypeDebris,
      HazardTypeAccident, HazardTypeConstruction, HazardTypeOther],
   (C11_create_unvalidated store1 { user_id := some 2, email := none } badCreate 9 2 0 rfl
      (by simp [store1, pothole])).1,
   (C11_create_unvalidated store1 { user_id := some 2, email := none } badCreate 9 2 0 rfl
      (by simp [store1, pothole])).2.2.1⟩

/-- C13: creating a hazard through `HazardHandler.Create` (authenticated user, fresh id from
`uuid.New()`) answers 201 with the created hazard, and `GetByID` with its id then succeeds
and returns a hazard with exactly the coordinates of the request, confirmation flag false
and verification count 0. This holds for every latitude and longitude, in particular for
those in [-90, 90] and [-180, 180]. -/
theorem C13_create_then_get (db : DB) (ctx : Context) (req : HazardCreate)
    (newID userID : UUID) (now : Time) (hctx : ctx.user_id = some userID)
    (hfresh : ∀ r ∈ db.hazards, r.id ≠ newID) :
    ∃ created, (handlers.Create db ctx (some req) newID now).1
        = { status := 201, body := .hazard created } ∧
      ∃ h, hazards.GetByID (handlers.Create db ctx (some req) newID now).2 created.ID = .ok h ∧
        h.ID = created.ID ∧ h.UserID = userID ∧
        h.Latitude = req.Latitude ∧ h.Longitude = req.Longitude ∧
        h.Type_ = req.Type_ ∧ h.Severity = req.Severity ∧
        h.IsVerified = false ∧ h.VerifyCount = 0 := by
  rw [handlers_Create_fresh db ctx req newID userID now hctx hfresh]
  refine ⟨_, rfl, ?_⟩
  have hnone : db.hazards.find? (fun r => r.id == newID) = none := by
    rw [List.find?_eq_none]
    intro r hr
    simpa using hfresh r hr
  refine ⟨_, ?_, rfl, rfl, rfl, rfl, rfl, rfl, rfl, rfl⟩
  simp only [hazards.GetByID, List.find?_append, hnone]
  simp [HazardRow.scan]

/-- Witness of C13: user 2 reports the pothole `goodCreate` into `store1` with the fresh id
9; `GetByID 9` returns its coordinates, flag false and count 0. -/
theorem C13_create_then_get_witness :
    ∃ h, hazards.GetByID
        (handlers.Create store1 { user_id := some 2, email := none } (some goodCreate) 9 0).2 9
          = .ok h ∧
      h.Latitude = goodCreate.Latitude ∧ h.Longitude = goodCreate.Longitude ∧
      h.IsVerified = false ∧ h.VerifyCount = 0 := by
  obtain ⟨created, hresp, h, hget, hid, _, hlat, hlon, _, _, hflag, hcount⟩ :=
    C13_create_then_get store1 { user_id := some 2, email := none } goodCreate 9 2 0 rfl
      (by simp [store1, pothole])
  have hcreated : created.ID = 9 := by
    rw [handlers_Create_fresh store1 _ goodCreate 9 2 0 rfl (by simp [store1, pothole])]
      at hresp
    simp only [Response.mk.injEq, Body.hazard.injEq, true_and] at hresp
    rw [← hresp]
  rw [hcreated] at hget
  exact ⟨h, hget, hlat, hlon, hflag, hcount⟩

/-! ## Confirmation flag -/

theorem find_filter_other (l : List HazardRow) (id id' : UUID) (hne : id ≠ id') :
    (l.filter (fun r => r.id != id')).find? (fun r => r.id == id)
      = l.find? (fun r => r.id == id) := by
  induction l with
  | nil => rfl
  | cons r rs ih =>
    by_cases hr : r.id = id'
    · have hrid : (r.id == id) = false := by
        rw [beq_eq_false_iff_ne]
        intro h
        exact hne (h.symm.trans hr)
      rw [List.filter_cons_of_neg (by simp [hr])]
      simp only [List.find?_cons, hrid]
      exact ih
    · rw [List.filter_cons_of_pos (by simp [hr])]
      cases hrid : (r.id == id) with
      | true => simp only [List.find?_cons, hrid]
      | false =>
        simp only [List.find?_cons, hrid]
        exact ih

theorem find_filter_same (l : List HazardRow) (id : UUID) :
    (l.filter (fun r => r.id != id)).find? (fun r => r.id == id) = none := by
  rw [List.find?_eq_none]
  intro r hr
  simpa using (List.mem_filter.mp hr).2

theorem GetByID_after_op (db : DB) (op : hazards.Op) (id : UUID) (h : Hazard)
    (hbefore : hazards.GetByID db id = .ok h) :
    hazards.GetByID (op.run db) id = .ok h ∨
    hazards.GetByID (op.run db) id = .error .hazardNotFound := by
  cases op with
  | GetByID _ => exact Or.inl hbefore
  | GetNearby _ _ _ _ => exact Or.inl hbefore
  | VerifyHazard hazardID userID =>
    left
    rw [← hbefore]
    exact GetByID_congr db _ (VerifyHazard_hazards db hazardID userID) id
  | Create hazard now =>
    left
    by_cases hany : db.hazards.any (fun r => r.id == hazard.ID) = true
    · have hrun : (hazards.Op.Create hazard now).run db = db := by
        simp only [hazards.Op.run, hazards.Create, hany, if_true]
      rw [hrun]
      exact hbefore
    · have hrun : (hazards.Op.Create hazard now).run db
          = { db with hazards := db.hazards ++ [hazards.insertedRow hazard now] } := by
        simp only [hazards.Op.run, hazards.Create, hany]
        rfl
      rw [hrun]
      simp only [hazards.GetByID] at hbefore ⊢
      cases hfind : db.hazards.find? (fun r => r.id == id) with
      | none => rw [hfind] at hbefore; simp at hbefore
      | some r =>
        rw [hfind] at hbefore
        rw [List.find?_append, hfind]
        exact hbefore
  | Delete id' =>
    simp only [hazards.Op.run, hazards.Delete]
    split
    · exact Or.inl hbefore
    · by_cases hid : id = id'
      · right
        subst hid
        simp only [hazards.GetByID, find_filter_same]
      · left
        simp only [hazards.GetByID, find_filter_other _ id id' hid]
        exact hbefore

/-- C12: for every store state and every call of `Create`, `VerifyHazard`, `Delete`,
`GetByID` or `GetNearby`, a hazard that `GetByID` returns with confirmation flag true before
the call and that `GetByID` still returns after it has confirmation flag true after it (it is
returned unchanged): no operation of the repository moves the flag from true to false. -/
theorem C12_confirmation_monotone (db : DB) (op : hazards.Op) (id : UUID) (h h' : Hazard)
    (hbefore : hazards.GetByID db id = .ok h) (htrue : h.IsVerified = true)
    (hafter : hazards.GetByID (op.run db) id = .ok h') :
    h'.IsVerified = true ∧ h' = h := by
  rcases GetByID_after_op db op id h hbefore with hsame | hgone
  · rw [hsame] at hafter
    simp only [Except.ok.injEq] at hafter
    subst hafter
    exact ⟨htrue, rfl⟩
  · rw [hgone] at hafter
    simp at hafter

/-- Witness of C12: in `store4` hazard 1 is confirmed; after a vote of user 7 on it `GetByID`
still returns it confirmed. -/
theorem C12_confirmation_monotone_witness :
    ∃ h', hazards.GetByID ((hazards.Op.VerifyHazard 1 7).run store4) 1 = .ok h' ∧
      h'.IsVerified = true :=
  ⟨({ pothole with is_verified := true, verify_count := 3 } : HazardRow).scan, rfl,
   (C12_confirmation_monotone store4 (.VerifyHazard 1 7) 1
      ({ pothole with is_verified := true, verify_count := 3 } : HazardRow).scan
      ({ pothole with is_verified := true, verify_count := 3 } : HazardRow).scan
      rfl rfl rfl).1⟩

/-! ## Totality of token validation -/

/-- C14, what the code does: `ValidateToken` panics, by reading `claims.ExpiresAt.Time`
through a nil pointer, exactly for the tokens that are correctly signed with the manager's
secret, carry no expires-at, and pass the library's not-before check; for every other token
string it returns claims or an error. -/
theorem C14_validate_panics_iff (lib : auth.JWT) (m : auth.JWTManager) (libNow now : Time)
    (t : String) :
    auth.ValidateToken lib m libNow now t = .panicked ↔
      ∃ c, lib.decode t = some (.HMAC, c) ∧ lib.verify .HMAC t m.secretKey = true ∧
        c.ExpiresAt = none ∧ ∀ nbf, c.NotBefore = some nbf → nbf ≤ libNow := by
  constructor
  · intro hpanic
    cases hdec : lib.decode t with
    | none => rw [ValidateToken_malformed lib m libNow now t hdec] at hpanic; simp at hpanic
    | some mc =>
      obtain ⟨method, c⟩ := mc
      cases method with
      | unavailable =>
        rw [ValidateToken_unavailable lib m libNow now t c hdec] at hpanic; simp at hpanic
      | other =>
        rw [ValidateToken_other lib m libNow now t c hdec] at hpanic; simp at hpanic
      | HMAC =>
        cases hver : lib.verify .HMAC t m.secretKey with
        | false =>
          rw [ValidateToken_bad_signature lib m libNow now t c hdec hver] at hpanic
          simp at hpanic
        | true =>
          rw [ValidateToken_signed lib m libNow now t c hdec hver] at hpanic
          by_cases hval : auth.JWT.validateClaims libNow c = []
          · rw [if_pos hval] at hpanic
            cases hexp : c.ExpiresAt with
            | some exp =>
              rw [hexp] at hpanic
              by_cases hgt : now > exp <;> simp [hgt] at hpanic
            | none =>
              exact ⟨c, rfl, rfl, hexp, ((validateClaims_none_iff libNow c).mp hval).2⟩
          · rw [if_neg hval] at hpanic; simp at hpanic
  · rintro ⟨c, hdec, hver, hexp, hnbf⟩
    have hval : auth.JWT.validateClaims libNow c = [] := by
      rw [validateClaims_none_iff]
      exact ⟨fun exp hx => by rw [hexp] at hx; simp at hx, hnbf⟩
    rw [ValidateToken_signed lib m libNow now t c hdec hver, if_pos hval]
    simp only [hexp]

/-- Witness of C14: a token of user 5 signed with the manager's secret and without an
expires-at makes `ValidateToken` panic. -/
theorem C14_validate_panics_iff_witness :
    openClaims.ExpiresAt = none ∧
    auth.ValidateToken plainJWT manager 5000000000 5000000000
        (plainSign openClaims manager.secretKey) = .panicked :=
  ⟨rfl,
   (C14_validate_panics_iff plainJWT manager 5000000000 5000000000
      (plainSign openClaims manager.secretKey)).mpr
    ⟨openClaims, plainJWT_decode_sign openClaims manager.secretKey,
      plainJWT_verify_sign .HMAC openClaims manager.secretKey, rfl,
      fun nbf hnbf => by
        simp only [openClaims, Option.some.injEq] at hnbf
        subst hnbf
        decide⟩⟩
